import Mathlib

/-!
Verification of the codex-agent-sdk JSON-RPC client core.

Shallow embedding of `src/codex_agent_sdk/client.py` (CodexClient: message
classification, request correlation, server-request dispatch, reader loop)
and `src/codex_agent_sdk/transport/subprocess.py` (line framer, buffer
overflow guard, process-exit handling).

Modelling conventions:
* Decoded JSON values are the inductive `Json`; a decoded message (the
  Python dict produced by `json.loads`) is a `JsonFields` sequence of
  key/value bindings in insertion order (Python dicts have unique keys).
  `Json.null` stands for the Python value `None`.
* The optional `schema_validator` and `notification_handler` constructor
  arguments are fixed to their default `None`, and all modelled runs are of
  a connected client (the `if not self._transport` guards never fire).
* Python exceptions are the inductive `PyExn`; functions that can raise
  return `Except PyExn _`.
* Byte strings are modelled as `List Char` (the transport's framing logic
  is byte-agnostic apart from the `\n` delimiter and length comparisons).
* `PendingRequest.resolveCount` is ghost instrumentation: it counts how
  many times the slot's result cell was written together with
  `event.set()`.
-/

namespace CodexSDK

mutual
/-- A decoded JSON value.  `null` also stands for Python `None`. -/
inductive Json where
  | null
  | bool (b : Bool)
  | num (n : Int)
  | str (s : String)
  | arr (elems : JsonList)
  | obj (fields : JsonFields)
deriving DecidableEq
/-- Elements of a JSON array. -/
inductive JsonList where
  | nil
  | cons (hd : Json) (tl : JsonList)
deriving DecidableEq
/-- Bindings of a JSON object / Python dict, in insertion order. -/
inductive JsonFields where
  | nil
  | cons (key : String) (val : Json) (tl : JsonFields)
deriving DecidableEq
end

/-- A decoded inbound/outbound message: a Python dict. -/
abbrev Msg := JsonFields

/-- Build a `JsonFields` from a plain list of bindings (input sugar only). -/
def fieldsOf : List (String × Json) → JsonFields
  | [] => .nil
  | (k, v) :: rest => .cons k v (fieldsOf rest)

/-- `d[k]` / `d.get(k)` key lookup (first binding; dict keys are unique). -/
def getKey : Msg → String → Option Json
  | .nil, _ => none
  | .cons k v tl, key => if k = key then some v else getKey tl key

/-- Python `k in d`. -/
def hasKey (m : Msg) (k : String) : Bool :=
  (getKey m k).isSome

/-- Python `d.get(k)` as seen by the client code: `None` both when the key
is absent and when its decoded value is JSON null (json.loads maps null to
Python None). -/
def pyGet (m : Msg) (k : String) : Option Json :=
  match getKey m k with
  | some Json.null => none
  | some v => some v
  | none => none

/-- Python truthiness of a decoded JSON value. -/
def Json.pyTruthy : Json → Bool
  | .null => false
  | .bool b => b
  | .num n => decide (n ≠ 0)
  | .str s => decide (s ≠ "")
  | .arr .nil => false
  | .arr (.cons _ _) => true
  | .obj .nil => false
  | .obj (.cons _ _ _) => true

/-- Python `isinstance(v, dict)`. -/
def Json.isObj : Json → Bool
  | .obj _ => true
  | _ => false

/-- Python `str(v)` for decoded JSON values.  For containers Python produces
their repr; the claims only exercise `str` on strings, so the container
rendering is a placeholder never compared against. -/
def pyStr : Json → String
  | .null => "None"
  | .bool true => "True"
  | .bool false => "False"
  | .num n => toString n
  | .str s => s
  | .arr _ => "<list>"
  | .obj _ => "<dict>"

/-- Python `str.strip()` with no argument: drop whitespace from both
ends (ASCII whitespace; Python also strips other Unicode whitespace). -/
def pyStrip (l : List Char) : List Char :=
  ((l.dropWhile Char.isWhitespace).reverse.dropWhile Char.isWhitespace).reverse

/-- A digit run as Python's `int()` accepts it: `digit (["_"] digit)*` —
single underscores allowed between digits only.  After the leading digit,
`pyDigitsTail` checks the rest. -/
def pyDigitsTail : List Char → Bool
  | [] => true
  | c :: rest =>
      if c = '_' then
        match rest with
        | [] => false
        | d :: rest' => d.isDigit && pyDigitsTail rest'
      else c.isDigit && pyDigitsTail rest

/-- Python `int(s)` on a string: optional surrounding whitespace, optional
sign, ASCII decimal digits with optional single digit-group underscores
(Python additionally accepts non-ASCII Unicode decimal digits, which the
`Char.isDigit` check does not model). -/
def pyIntOfString (s : String) : Option Int :=
  let t := pyStrip s.data
  let core : Bool × List Char :=
    match t with
    | '-' :: rest => (true, rest)
    | '+' :: rest => (false, rest)
    | rest => (false, rest)
  match core with
  | (neg, ds) =>
      let okRun : Bool :=
        match ds with
        | [] => false
        | d :: rest => d.isDigit && pyDigitsTail rest
      if okRun then
        let digits := ds.filter (fun c => c ≠ '_')
        let n : Nat := digits.foldl (fun acc c => acc * 10 + (c.toNat - '0'.toNat)) 0
        some (if neg then -(n : Int) else (n : Int))
      else none

/-- `errors.py`: exceptions raised by or stored inside the client, plus the
builtin Python exceptions reachable in the modelled code. -/
inductive PyExn where
  /-- `CodexConnectionError(msg)`. -/
  | codexConnection (msg : String)
  /-- `CodexJSONDecodeError(line, original_error)`; carries the offending
  line (the `original_error` argument is not modelled). -/
  | codexJSONDecode (line : String)
  /-- `CodexProcessError(msg, exit_code)`; carries the exit code. -/
  | codexProcess (exitCode : Int)
  /-- `CodexRPCError(code, message, data)` raised at the `request` site. -/
  | codexRPC (code : Int) (message : String) (data : Option Json)
  /-- builtin `AttributeError` (e.g. `.get` on a non-dict error value). -/
  | attributeError (name : String)
  /-- builtin `ValueError` (e.g. `int()` on a non-numeric string). -/
  | valueError (what : String)
  /-- builtin `TypeError` (e.g. `int(None)`). -/
  | typeError (what : String)
deriving DecidableEq

/-- Python `int(v)` on a decoded JSON value. -/
def pyInt : Json → Except PyExn Int
  | .num n => .ok n
  | .bool b => .ok (if b then 1 else 0)
  | .str s =>
      match pyIntOfString s with
      | some n => .ok n
      | none => .error (.valueError s)
  | _ => .error (.typeError "int() argument")

/-- The value stored in a pending slot's `result` cell when it is not
Python `None`: the raw decoded result, a `CodexRPCError`, or the exception
the reader loop failed with. -/
inductive SlotValue where
  | json (v : Json)
  | rpc (code : Int) (message : String) (data : Option Json)
  | exn (e : PyExn)
deriving DecidableEq

/-- `_PendingRequest`: one pending slot.  `eventSet` mirrors the anyio
event; `result = none` is Python `result is None`.  `resolveCount` is ghost
instrumentation counting result-write/`event.set()` pairs. -/
structure PendingRequest where
  eventSet : Bool
  result : Option SlotValue
  resolveCount : Nat
deriving DecidableEq

/-- A freshly created pending slot (`_PendingRequest(event=anyio.Event())`). -/
def freshSlot : PendingRequest := ⟨false, none, 0⟩

/-- The mutable client state a `CodexClient` instance carries through a
connection: the pending-slot mapping, the notification queue's send side and
its closed flag, every line written to the transport (decoded), and the
request-id counter. -/
structure ClientState where
  pending : List (Json × PendingRequest)
  notifSent : List Msg
  notifClosed : Bool
  outbox : List Json
  nextId : Int
deriving DecidableEq

/-- The state of a constructed, connected client before any traffic. -/
def emptyClient : ClientState := ⟨[], [], false, [], 0⟩

/-- Outcome of awaiting a Python handler coroutine: a return value or a
raised exception carrying `str(exc)`. -/
inductive HOutcome (α : Type) where
  | ok (v : α)
  | raises (msg : String)

/-- The handler callbacks passed to the `CodexClient` constructor (those the
claims exercise; `notification_handler` and `schema_validator` stay `None`).
Approval and tool handlers receive `params or {}`; the dynamic tool handler
may return a dict or a 2-tuple `(output, success)`. -/
structure Handlers where
  request : Option (String → Option Json → HOutcome Json)
  commandApproval : Option (Json → HOutcome Json)
  fileChangeApproval : Option (Json → HOutcome Json)
  toolInput : Option (Json → HOutcome Json)
  dynamicTool : Option (Json → HOutcome (Json ⊕ (String × Bool)))

/-- A client with no handlers registered (all constructor defaults). -/
def noHandlers : Handlers := ⟨none, none, none, none, none⟩

instance exceptDecEq {ε α : Type} [DecidableEq ε] [DecidableEq α] :
    DecidableEq (Except ε α) := fun x y =>
  match x, y with
  | .ok a, .ok b =>
      if h : a = b then .isTrue (by rw [h]) else .isFalse (by simp [h])
  | .error a, .error b =>
      if h : a = b then .isTrue (by rw [h]) else .isFalse (by simp [h])
  | .ok _, .error _ => .isFalse (by simp)
  | .error _, .ok _ => .isFalse (by simp)

/-- Python dict-key normalisation: `bool` is a subclass of `int`, so the
keys `True`/`False` hash and compare equal to `1`/`0` and occupy the same
dict slot. -/
def keyNorm : Json → Json
  | .bool x => .num (if x then 1 else 0)
  | v => v

/-- Python `==` as dict-key probing uses it on decoded values:
`True == 1`, `False == 0`, otherwise structural. -/
def pyKeyEq (a b : Json) : Bool := decide (keyNorm a = keyNorm b)

/-- Whether a decoded JSON value is hashable as a Python dict key: decoded
lists and dicts are unhashable, so `dict.get` raises `TypeError` on them. -/
def Json.pyHashable : Json → Bool
  | .arr _ => false
  | .obj _ => false
  | _ => true

/-- `self._pending.get(req_id)` for a hashable `req_id`: first binding
whose key Python-equals it (a Python dict has at most one). -/
def probeSlot (l : List (Json × PendingRequest)) (k : Json) : Option PendingRequest :=
  (l.find? (fun e => pyKeyEq e.1 k)).map (·.2)

/-- `self._pending.get(req_id)` where the key is known structural (the
client's own integer request ids): first binding of the key. -/
def lookupSlot (l : List (Json × PendingRequest)) (k : Json) : Option PendingRequest :=
  (l.find? (fun e => decide (e.1 = k))).map (·.2)

/-- Writing a slot's result cell and signalling its event
(`pending.result = r; pending.event.set()`).  `r = none` is the store of a
Python `None` (a JSON null result). -/
def resolveSlot (p : PendingRequest) (r : Option SlotValue) : PendingRequest :=
  { p with result := r, eventSet := true, resolveCount := p.resolveCount + 1 }

/-- In-place mutation of the slot object returned by `_pending.get`:
rewrite the first binding whose key Python-equals `k` (the binding
`probeSlot` found). -/
def resolveAt : List (Json × PendingRequest) → Json → Option SlotValue →
    List (Json × PendingRequest)
  | [], _, _ => []
  | e :: rest, k, r =>
      if pyKeyEq e.1 k then (e.1, resolveSlot e.2 r) :: rest
      else e :: resolveAt rest k r

/-- `self._pending.pop(req_id, None)`: drop the first binding of the key. -/
def removeSlot : List (Json × PendingRequest) → Json → List (Json × PendingRequest)
  | [], _ => []
  | e :: rest, k => if e.1 = k then rest else e :: removeSlot rest k

/-- `{"id": req_id, "result": result}` as written by `_send_response`. -/
def responseMsg (reqId : Json) (result : Json) : Json :=
  .obj (fieldsOf [("id", reqId), ("result", result)])

/-- `{"id": req_id, "error": {"code": code, "message": message}}` as written
by `_send_error`. -/
def errorMsg (reqId : Json) (code : Int) (message : String) : Json :=
  .obj (fieldsOf [("id", reqId),
    ("error", .obj (fieldsOf [("code", .num code), ("message", .str message)]))])

/-- `params or {}` applied to the (possibly `None`) params value handed to
the specific handlers. -/
def paramsOrEmpty : Option Json → Json
  | none => .obj .nil
  | some p => if p.pyTruthy then p else .obj .nil

/-- `_handle_command_approval`: reply lines, or the exception a registered
handler raised (caught by `_handle_request`).  A non-dict decision is
wrapped as `{"decision": decision}`. -/
def commandApprovalWrites (hs : Handlers) (reqId : Json) (params : Option Json) :
    Except String (List Json) :=
  match hs.commandApproval with
  | none => .ok [errorMsg reqId (-32601) "No command approval handler"]
  | some h =>
      match h (paramsOrEmpty params) with
      | .raises e => .error e
      | .ok decision =>
          let result := if decision.isObj then decision
            else .obj (.cons "decision" decision .nil)
          .ok [responseMsg reqId result]

/-- `_handle_file_change_approval`: same wrapping as command approval. -/
def fileChangeApprovalWrites (hs : Handlers) (reqId : Json) (params : Option Json) :
    Except String (List Json) :=
  match hs.fileChangeApproval with
  | none => .ok [errorMsg reqId (-32601) "No file-change approval handler"]
  | some h =>
      match h (paramsOrEmpty params) with
      | .raises e => .error e
      | .ok decision =>
          let result := if decision.isObj then decision
            else .obj (.cons "decision" decision .nil)
          .ok [responseMsg reqId result]

/-- `_handle_tool_input`: the handler's return value is sent as-is. -/
def toolInputWrites (hs : Handlers) (reqId : Json) (params : Option Json) :
    Except String (List Json) :=
  match hs.toolInput with
  | none => .ok [errorMsg reqId (-32601) "No tool input handler"]
  | some h =>
      match h (paramsOrEmpty params) with
      | .raises e => .error e
      | .ok result => .ok [responseMsg reqId result]

/-- `_handle_dynamic_tool`: a 2-tuple `(output, success)` is normalised to
`{"output": output, "success": bool(success)}`; anything else is sent
as-is. -/
def dynamicToolWrites (hs : Handlers) (reqId : Json) (params : Option Json) :
    Except String (List Json) :=
  match hs.dynamicTool with
  | none => .ok [errorMsg reqId (-32601) "No dynamic tool handler"]
  | some h =>
      match h (paramsOrEmpty params) with
      | .raises e => .error e
      | .ok (.inr (output, success)) =>
          .ok [responseMsg reqId
            (.obj (fieldsOf [("output", .str output), ("success", .bool success)]))]
      | .ok (.inl result) => .ok [responseMsg reqId result]

/-- `_handle_request`: the lines written in reply to a server-initiated
request.  A generic `request_handler` takes precedence; otherwise the four
known method names dispatch to their specific handlers, whose exceptions are
converted to a `-32000` error reply; an unknown method gets `-32601`. -/
def handleRequestWrites (hs : Handlers) (method : String) (reqId : Json)
    (params : Option Json) : List Json :=
  match hs.request with
  | some h =>
      match h method params with
      | .ok result => [responseMsg reqId result]
      | .raises e => [errorMsg reqId (-32000) e]
  | none =>
      let dispatched : Option (Except String (List Json)) :=
        if method = "item/commandExecution/requestApproval" then
          some (commandApprovalWrites hs reqId params)
        else if method = "item/fileChange/requestApproval" then
          some (fileChangeApprovalWrites hs reqId params)
        else if method = "item/tool/requestUserInput" then
          some (toolInputWrites hs reqId params)
        else if method = "item/tool/call" then
          some (dynamicToolWrites hs reqId params)
        else none
      match dispatched with
      | some (.ok ws) => ws
      | some (.error e) => [errorMsg reqId (-32000) e]
      | none => [errorMsg reqId (-32601) ("No handler for " ++ method)]

/-- Lines 146-156 of `client.py`: build the `CodexRPCError` stored into a
pending slot from the message's `error` value.  `message["error"] or {}`
defaults falsy values to the empty dict; `.get` on a truthy non-dict raises
`AttributeError`; `int()` of a non-integer `code` raises. -/
def buildRPCError (errVal : Json) : Except PyExn SlotValue :=
  let e := if errVal.pyTruthy then errVal else .obj .nil
  match e with
  | .obj fields => do
      let code ← pyInt ((getKey fields "code").getD (.num (-32000)))
      let message := pyStr ((getKey fields "message").getD (.str "Unknown error"))
      let data := pyGet fields "data"
      .ok (.rpc code message data)
  | _ => .error (.attributeError "get")

/-- `message["id"]` of a response/server-request message (the `.getD .null`
is never reached when the key is present). -/
def reqIdOf (m : Msg) : Json := (getKey m "id").getD .null

/-- The value a success response stores into the slot's result cell:
`pending.result = message["result"]`, where a JSON null result stores
Python `None`. -/
def successCell (m : Msg) : Option SlotValue :=
  let v := (getKey m "result").getD .null
  if v = .null then none else some (.json v)

/-- `message["error"]` of an error response. -/
def errValOf (m : Msg) : Json := (getKey m "error").getD .null

/-- `_handle_message`: classify one decoded inbound message by key presence
and act on it.  Server requests go to the dispatcher (whose replies land in
`outbox`); notifications are appended to the notification queue; success and
error responses resolve the matching pending slot, if any. -/
def handleMessage (hs : Handlers) (st : ClientState) (m : Msg) :
    Except PyExn ClientState :=
  match getKey m "method" with
  | some mv =>
      let method := pyStr mv
      let params := pyGet m "params"
      if hasKey m "id" then
        .ok { st with
          outbox := st.outbox ++ handleRequestWrites hs method (reqIdOf m) params }
      else
        .ok { st with notifSent := st.notifSent ++ [m] }
  | none =>
      if hasKey m "id" ∧ hasKey m "result" then
        if (reqIdOf m).pyHashable then
          match probeSlot st.pending (reqIdOf m) with
          | none => .ok st
          | some _ =>
              .ok { st with pending := resolveAt st.pending (reqIdOf m) (successCell m) }
        else .error (.typeError "unhashable type")
      else if hasKey m "id" ∧ hasKey m "error" then
        if (reqIdOf m).pyHashable then
          match probeSlot st.pending (reqIdOf m) with
          | none => .ok st
          | some _ =>
              match buildRPCError (errValOf m) with
              | .ok sv =>
                  .ok { st with pending := resolveAt st.pending (reqIdOf m) (some sv) }
              | .error pe => .error pe
        else .error (.typeError "unhashable type")
      else
        .ok st

/-- The five classification clauses of the Inbound Dispatcher, in the
precedence order of `_handle_message`'s key tests. -/
inductive MsgClass where
  | serverRequest
  | notification
  | success
  | rpcError
  | ignored
deriving DecidableEq

/-- Classification of a decoded message by key presence, mirroring the
test order of `_handle_message`. -/
def classify (m : Msg) : MsgClass :=
  if hasKey m "method" then
    (if hasKey m "id" then .serverRequest else .notification)
  else if hasKey m "id" ∧ hasKey m "result" then .success
  else if hasKey m "id" ∧ hasKey m "error" then .rpcError
  else .ignored

/-- Whether a message is a response (success or error) bearing request id
`rid` under Python key equality (so `{"id": true}` bears the id 1) —
i.e. a message whose handling can touch `rid`'s pending slot. -/
def respondsTo (m : Msg) (rid : Json) : Bool :=
  !(hasKey m "method") &&
    (match getKey m "id" with
     | some x => pyKeyEq x rid
     | none => false) &&
    (hasKey m "result" || hasKey m "error")

/-- The `async for` body of `_reader_loop`: handle messages in arrival order
until the list is exhausted or `_handle_message` raises; return the state
reached and the exception, if any. -/
def processMsgs (hs : Handlers) : ClientState → List Msg → ClientState × Option PyExn
  | st, [] => (st, none)
  | st, m :: ms =>
      match handleMessage hs st m with
      | .ok st' => processMsgs hs st' ms
      | .error e => (st, some e)

/-- The per-slot effect of `_reader_loop`'s `except` clause: a slot whose
result cell is still `None` is resolved with the exception. -/
def failSlot (e : PyExn) (p : PendingRequest) : PendingRequest :=
  if p.result = none then resolveSlot p (some (.exn e)) else p

/-- `for pending in self._pending.values(): ...` on reader failure. -/
def failPending (e : PyExn) (st : ClientState) : ClientState :=
  { st with pending := st.pending.map (fun kp => (kp.1, failSlot e kp.2)) }

/-- `_reader_loop`: consume the message stream (`msgs` then, if the
underlying transport raises, `streamExn`); on any exception fail every
still-unresolved pending slot; finally close the notification send side. -/
def readerLoop (hs : Handlers) (st : ClientState) (msgs : List Msg)
    (streamExn : Option PyExn) : ClientState :=
  match processMsgs hs st msgs with
  | (st', some e) => { failPending e st' with notifClosed := true }
  | (st', none) =>
      match streamExn with
      | some e => { failPending e st' with notifClosed := true }
      | none => { st' with notifClosed := true }

/-- The sending half of `request`: allocate the next id (pre-increment),
register a fresh pending slot, and write `{"id", "method", "params"}`. -/
def requestSend (st : ClientState) (method : String) (params : Json) :
    ClientState × Int :=
  let rid := st.nextId + 1
  ({ st with
      nextId := rid,
      pending := st.pending ++ [(.num rid, freshSlot)],
      outbox := st.outbox ++
        [Json.obj (fieldsOf
          [("id", .num rid), ("method", .str method), ("params", params)])] },
   rid)

/-- What a completed `request` call does after its wait: return the decoded
result or raise. -/
inductive RequestResult where
  | ret (v : Json)
  | raise (e : PyExn)
deriving DecidableEq

/-- The waiting half of `request`, entered once the slot's event is set or
the timeout fires (`timedOut = true` models a non-`None` timeout elapsing
before the event was signalled).  On timeout: pop the slot and raise a
connection error naming the method.  Otherwise: pop the slot, raise the
stored exception if the result cell holds one, else return it (a `None`
cell is returned as Python `None`). -/
def requestAwait (st : ClientState) (reqId : Int) (method : String)
    (timedOut : Bool) : ClientState × RequestResult :=
  if timedOut then
    ({ st with pending := removeSlot st.pending (.num reqId) },
     .raise (.codexConnection ("Request timeout: " ++ method)))
  else
    let slot := (lookupSlot st.pending (.num reqId)).getD freshSlot
    let st' := { st with pending := removeSlot st.pending (.num reqId) }
    match slot.result with
    | none => (st', .ret .null)
    | some (.json v) => (st', .ret v)
    | some (.rpc code message data) => (st', .raise (.codexRPC code message data))
    | some (.exn e) => (st', .raise e)

/-- `notify`: write `{"method": method}` with `"params"` only when given. -/
def notifySend (st : ClientState) (method : String) (params : Option Json) :
    ClientState :=
  let msg : Json :=
    match params with
    | none => .obj (.cons "method" (.str method) .nil)
    | some p => .obj (fieldsOf [("method", .str method), ("params", p)])
  { st with outbox := st.outbox ++ [msg] }

/-- The `CodexClientOptions` fields consumed by `_initialize`. -/
structure ClientOptions where
  clientName : String := "codex_sdk_py"
  clientTitle : Option String := some "Codex SDK (Python)"
  clientVersion : String := "0.1.0"
  experimentalApi : Bool := false

/-- The params dict `_initialize` builds: `clientInfo` always,
`capabilities.experimentalApi` only when the option is set. -/
def initParamsJson (opts : ClientOptions) : Json :=
  let info : Json := .obj (fieldsOf
    [("name", .str opts.clientName),
     ("title", match opts.clientTitle with | none => .null | some t => .str t),
     ("version", .str opts.clientVersion)])
  if opts.experimentalApi then
    .obj (fieldsOf [("clientInfo", info),
      ("capabilities", .obj (.cons "experimentalApi" (.bool true) .nil))])
  else
    .obj (.cons "clientInfo" info .nil)

/-- The first line `connect` writes: the id-1 initialize request. -/
def initRequestMsg (opts : ClientOptions) : Json :=
  .obj (fieldsOf [("id", .num 1), ("method", .str "initialize"),
    ("params", initParamsJson opts)])

/-- The one-way notification sent right after the handshake result. -/
def initializedMsg : Json := .obj (.cons "method" (.str "initialized") .nil)

/-- `connect` + `_initialize` on a fresh client: send the initialize
request; the reader (started just before) handles `interleaved`, the
inbound messages that arrive before the awaiting caller resumes; the caller
then observes its slot and, on success, sends the `initialized`
notification.  A reader failure resolves the slot (if still unresolved)
with that failure, which the caller re-raises out of `connect`. -/
def connectRun (hs : Handlers) (opts : ClientOptions) (interleaved : List Msg) :
    Except PyExn ClientState :=
  let sent := requestSend emptyClient "initialize" (initParamsJson opts)
  let read := processMsgs hs sent.1 interleaved
  let st2 : ClientState :=
    match read.2 with
    | some e => { failPending e read.1 with notifClosed := true }
    | none => read.1
  match requestAwait st2 sent.2 "initialize" false with
  | (_, .raise e) => .error e
  | (st3, .ret _) => .ok (notifySend st3 "initialized" none)

/-! ## Line transport (`transport/subprocess.py`) -/

/-- `buffer.split(b"\n", 1)` when a newline is present: the part before the
first newline and the rest. -/
def splitFirstNL : List Char → Option (List Char × List Char)
  | [] => none
  | c :: rest =>
      if c = '\n' then some ([], rest)
      else (splitFirstNL rest).map (fun p => (c :: p.1, p.2))

theorem splitFirstNL_length {l a b : List Char}
    (h : splitFirstNL l = some (a, b)) : b.length < l.length := by
  induction l generalizing a b with
  | nil => simp [splitFirstNL] at h
  | cons c rest ih =>
      by_cases hc : c = '\n'
      · simp [splitFirstNL, hc] at h
        simp [← h.2]
      · simp only [splitFirstNL, hc, if_false, Option.map_eq_some'] at h
        obtain ⟨p, hp, he⟩ := h
        have := @ih p.1 p.2 (by simpa using hp)
        cases he
        simpa [List.length_cons] using Nat.lt_succ_of_lt this

/-- The `while b"\n" in buffer` loop of `_read_messages_impl`: split off
complete lines, strip each, skip blanks, decode with `jsonLoads` (the
`json.loads` of the host, an arbitrary decoder the framer is parametric
in), and stop with a `CodexJSONDecodeError` on the first undecodable line.
Returns the remaining buffer, the messages yielded so far, and the
exception, if any. -/
def drainLines (jsonLoads : String → Option Json) (buf : List Char) :
    List Char × List Json × Option PyExn :=
  match h : splitFirstNL buf with
  | none => (buf, [], none)
  | some (line, rest) =>
      let lineStr := String.mk (pyStrip line)
      if lineStr = "" then drainLines jsonLoads rest
      else
        match jsonLoads lineStr with
        | none => (rest, [], some (.codexJSONDecode lineStr))
        | some v =>
            let r := drainLines jsonLoads rest
            (r.1, v :: r.2.1, r.2.2)
termination_by buf.length
decreasing_by all_goals exact splitFirstNL_length h

/-- One iteration of the receive loop for a non-empty chunk: append it to
the buffer, raise a decode error (after resetting the buffer) if the
accumulated length exceeds `maxBuf`, else drain complete lines. -/
def feedChunk (maxBuf : Nat) (jsonLoads : String → Option Json)
    (buf chunk : List Char) : List Char × List Json × Option PyExn :=
  let b := buf ++ chunk
  if b.length > maxBuf then ([], [], some (.codexJSONDecode "<buffer overflow>"))
  else drainLines jsonLoads b

/-- The receive loop of `_read_messages_impl` over a list of received
chunks.  An empty chunk is the `if not chunk: break` stream end; exhausting
the list models the stream ending via a caught `ClosedResourceError`.
Returns the final buffer, all messages yielded, and the exception that
aborted the loop, if any. -/
def runChunks (maxBuf : Nat) (jsonLoads : String → Option Json) :
    List Char → List (List Char) → List Char × List Json × Option PyExn
  | buf, [] => (buf, [], none)
  | buf, c :: cs =>
      if c = [] then (buf, [], none)
      else
        let r := feedChunk maxBuf jsonLoads buf c
        match r.2.2 with
        | some _ => r
        | none =>
            let r' := runChunks maxBuf jsonLoads r.1 cs
            (r'.1, r.2.1 ++ r'.2.1, r'.2.2)

/-- The process-exit epilogue of `_read_messages_impl`:
`if returncode and returncode != 0: raise CodexProcessError(...)`.
`none` models `self._process` being gone / `wait()` returning `None`. -/
def finishRead (returncode : Option Int) : Except PyExn Unit :=
  match returncode with
  | some c => if c ≠ 0 then .error (.codexProcess c) else .ok ()
  | none => .ok ()

/-- A whole run of `_read_messages_impl`: frame the received chunks, then —
only if no decode error aborted the generator — wait for the process and
check its exit code.  Returns the yielded messages and the terminal
exception, if any. -/
def readMessagesRun (maxBuf : Nat) (jsonLoads : String → Option Json)
    (chunks : List (List Char)) (returncode : Option Int) :
    List Json × Option PyExn :=
  let r := runChunks maxBuf jsonLoads [] chunks
  match r.2.2 with
  | some e => (r.2.1, some e)
  | none =>
      match finishRead returncode with
      | .ok _ => (r.2.1, none)
      | .error e => (r.2.1, some e)

/-! ## Concrete fixtures used by witnesses and counterexamples -/

/-- A connected client with one in-flight request (id 1, fresh slot). -/
def pendingOne : ClientState := { emptyClient with pending := [(.num 1, freshSlot)] }

/-- A connected client with three in-flight requests (ids 1, 2, 3). -/
def pendingThree : ClientState :=
  { emptyClient with
      pending := [(.num 1, freshSlot), (.num 2, freshSlot), (.num 3, freshSlot)],
      nextId := 3 }

/-- All-default `CodexClientOptions`. -/
def defaultOpts : ClientOptions := {}

/-- A generic `request_handler` that always raises `Exception("boom")`. -/
def hsRaise : Handlers :=
  { noHandlers with request := some (fun _ _ => .raises "boom") }

/-- A `command_approval_handler` that returns the string `"accept"`. -/
def hsAccept : Handlers :=
  { noHandlers with commandApproval := some (fun _ => .ok (.str "accept")) }

/-! ## Lemmas about the pending-slot mapping -/

theorem lookupSlot_nil (k : Json) : lookupSlot [] k = none := rfl

theorem lookupSlot_cons (e : Json × PendingRequest) (l : List (Json × PendingRequest))
    (k : Json) :
    lookupSlot (e :: l) k = if e.1 = k then some e.2 else lookupSlot l k := by
  by_cases h : e.1 = k <;> simp [lookupSlot, List.find?_cons, h]

theorem lookupSlot_eq_none_of_not_mem_keys {l : List (Json × PendingRequest)} {k : Json}
    (h : k ∉ l.map Prod.fst) : lookupSlot l k = none := by
  induction l with
  | nil => rfl
  | cons e rest ih =>
      simp only [List.map_cons, List.mem_cons, not_or] at h
      rw [lookupSlot_cons, if_neg (fun he => h.1 he.symm)]
      exact ih h.2

theorem pyKeyEq_refl (a : Json) : pyKeyEq a a = true := by
  simp [pyKeyEq]

theorem keyNorm_eq_of_pyKeyEq {a b : Json} (h : pyKeyEq a b = true) :
    keyNorm a = keyNorm b := by
  simpa [pyKeyEq] using h

theorem pyKeyEq_of_keyNorm_eq {a b : Json} (h : keyNorm a = keyNorm b) :
    pyKeyEq a b = true := by
  simp [pyKeyEq, h]

theorem probeSlot_nil (k : Json) : probeSlot [] k = none := rfl

theorem probeSlot_cons (e : Json × PendingRequest) (l : List (Json × PendingRequest))
    (k : Json) :
    probeSlot (e :: l) k = if pyKeyEq e.1 k then some e.2 else probeSlot l k := by
  cases h : pyKeyEq e.1 k <;> simp [probeSlot, List.find?_cons, h]

theorem probeSlot_congr {l : List (Json × PendingRequest)} {k k' : Json}
    (h : pyKeyEq k k' = true) : probeSlot l k = probeSlot l k' := by
  have hn := keyNorm_eq_of_pyKeyEq h
  induction l with
  | nil => rfl
  | cons e rest ih =>
      rw [probeSlot_cons, probeSlot_cons, ih]
      simp only [pyKeyEq, hn]

theorem probeSlot_resolveAt_self {l : List (Json × PendingRequest)} {k : Json}
    {p : PendingRequest} (h : probeSlot l k = some p) (r : Option SlotValue) :
    probeSlot (resolveAt l k r) k = some (resolveSlot p r) := by
  induction l with
  | nil => simp [probeSlot] at h
  | cons e rest ih =>
      rw [probeSlot_cons] at h
      cases he : pyKeyEq e.1 k
      · rw [he] at h
        simp only [Bool.false_eq_true, if_false] at h
        simp only [resolveAt, he, Bool.false_eq_true, if_false]
        rw [probeSlot_cons, he]
        simp only [Bool.false_eq_true, if_false]
        exact ih h
      · rw [he] at h
        simp only [if_true] at h
        cases h
        simp only [resolveAt, he, if_true]
        rw [probeSlot_cons]
        simp [he]

theorem probeSlot_resolveAt_ne {l : List (Json × PendingRequest)} {k k' : Json}
    (h : pyKeyEq k' k = false) (r : Option SlotValue) :
    probeSlot (resolveAt l k r) k' = probeSlot l k' := by
  induction l with
  | nil => rfl
  | cons e rest ih =>
      cases he : pyKeyEq e.1 k
      · simp only [resolveAt, he, Bool.false_eq_true, if_false]
        rw [probeSlot_cons, probeSlot_cons, ih]
      · have hne : pyKeyEq e.1 k' = false := by
          cases hb : pyKeyEq e.1 k'
          · rfl
          · exact absurd (pyKeyEq_of_keyNorm_eq
              ((keyNorm_eq_of_pyKeyEq hb).symm.trans (keyNorm_eq_of_pyKeyEq he)))
              (by simp [h])
        simp only [resolveAt, he, if_true]
        rw [probeSlot_cons, probeSlot_cons]
        simp [hne]

theorem probeSlot_map_snd (f : PendingRequest → PendingRequest)
    (l : List (Json × PendingRequest)) (k : Json) :
    probeSlot (l.map (fun kp => (kp.1, f kp.2))) k = (probeSlot l k).map f := by
  induction l with
  | nil => rfl
  | cons e rest ih =>
      simp only [List.map_cons]
      rw [probeSlot_cons, probeSlot_cons]
      cases he : pyKeyEq e.1 k <;> simp [he, ih]

theorem lookupSlot_removeSlot_self {l : List (Json × PendingRequest)} {k : Json}
    (h : (l.map Prod.fst).Nodup) : lookupSlot (removeSlot l k) k = none := by
  induction l with
  | nil => rfl
  | cons e rest ih =>
      simp only [List.map_cons, List.nodup_cons] at h
      by_cases he : e.1 = k
      · simp only [removeSlot, he, if_true]
        exact lookupSlot_eq_none_of_not_mem_keys (he ▸ h.1)
      · simp only [removeSlot, he, if_false]
        rw [lookupSlot_cons, if_neg he]
        exact ih h.2

theorem lookupSlot_map_snd (f : PendingRequest → PendingRequest)
    (l : List (Json × PendingRequest)) (k : Json) :
    lookupSlot (l.map (fun kp => (kp.1, f kp.2))) k = (lookupSlot l k).map f := by
  induction l with
  | nil => rfl
  | cons e rest ih =>
      by_cases he : e.1 = k
      · simp only [List.map_cons]
        rw [lookupSlot_cons, lookupSlot_cons]
        simp [he]
      · simp only [List.map_cons]
        rw [lookupSlot_cons, lookupSlot_cons]
        simp only [he, if_false, ih]

/-! ## Unfolding lemmas for `handleMessage` by message class -/

theorem hasKey_of_getKey {m : Msg} {k : String} {v : Json} (h : getKey m k = some v) :
    hasKey m k = true := by
  simp [hasKey, h]

theorem handleMessage_serverRequest {hs : Handlers} {st : ClientState} {m : Msg}
    {mv : Json} (hmv : getKey m "method" = some mv) (hid : hasKey m "id" = true) :
    handleMessage hs st m =
      .ok { st with outbox :=
        st.outbox ++ handleRequestWrites hs (pyStr mv) (reqIdOf m) (pyGet m "params") } := by
  simp [handleMessage, hmv, hid]

theorem handleMessage_notification {hs : Handlers} {st : ClientState} {m : Msg}
    {mv : Json} (hmv : getKey m "method" = some mv) (hid : hasKey m "id" = false) :
    handleMessage hs st m = .ok { st with notifSent := st.notifSent ++ [m] } := by
  simp [handleMessage, hmv, hid]

theorem handleMessage_success {hs : Handlers} {st : ClientState} {m : Msg}
    (hm : getKey m "method" = none) (hid : hasKey m "id" = true)
    (hres : hasKey m "result" = true) (hh : (reqIdOf m).pyHashable = true) :
    handleMessage hs st m =
      match probeSlot st.pending (reqIdOf m) with
      | none => .ok st
      | some _ => .ok { st with pending := resolveAt st.pending (reqIdOf m) (successCell m) } := by
  simp [handleMessage, hm, hid, hres, hh]

theorem handleMessage_success_unhashable {hs : Handlers} {st : ClientState} {m : Msg}
    (hm : getKey m "method" = none) (hid : hasKey m "id" = true)
    (hres : hasKey m "result" = true) (hh : (reqIdOf m).pyHashable = false) :
    handleMessage hs st m = .error (.typeError "unhashable type") := by
  simp [handleMessage, hm, hid, hres, hh]

theorem handleMessage_rpcError {hs : Handlers} {st : ClientState} {m : Msg}
    (hm : getKey m "method" = none) (hid : hasKey m "id" = true)
    (hres : hasKey m "result" = false) (herr : hasKey m "error" = true)
    (hh : (reqIdOf m).pyHashable = true) :
    handleMessage hs st m =
      match probeSlot st.pending (reqIdOf m) with
      | none => .ok st
      | some _ =>
          match buildRPCError (errValOf m) with
          | .ok sv => .ok { st with pending := resolveAt st.pending (reqIdOf m) (some sv) }
          | .error pe => .error pe := by
  simp [handleMessage, hm, hid, hres, herr, hh]

theorem handleMessage_rpcError_unhashable {hs : Handlers} {st : ClientState} {m : Msg}
    (hm : getKey m "method" = none) (hid : hasKey m "id" = true)
    (hres : hasKey m "result" = false) (herr : hasKey m "error" = true)
    (hh : (reqIdOf m).pyHashable = false) :
    handleMessage hs st m = .error (.typeError "unhashable type") := by
  simp [handleMessage, hm, hid, hres, herr, hh]

theorem handleMessage_ignored {hs : Handlers} {st : ClientState} {m : Msg}
    (hm : getKey m "method" = none)
    (h2 : ¬(hasKey m "id" = true ∧ hasKey m "result" = true))
    (h3 : ¬(hasKey m "id" = true ∧ hasKey m "error" = true)) :
    handleMessage hs st m = .ok st := by
  simp only [handleMessage, hm]
  rw [if_neg h2, if_neg h3]

theorem getKey_eq_none_of_hasKey_false {m : Msg} {k : String}
    (h : hasKey m k = false) : getKey m k = none := by
  rcases hg : getKey m k with _ | v
  · rfl
  · rw [hasKey, hg] at h
    simp at h

theorem classify_serverRequest_elim {m : Msg} (h : classify m = .serverRequest) :
    ∃ mv, getKey m "method" = some mv ∧ hasKey m "id" = true := by
  by_cases hm : hasKey m "method" = true
  · obtain ⟨mv, hmv⟩ := Option.isSome_iff_exists.mp hm
    by_cases hid : hasKey m "id" = true
    · exact ⟨mv, hmv, hid⟩
    · simp [classify, hm, hid] at h
  · simp only [classify, hm, Bool.false_eq_true, if_false] at h
    split at h
    · exact absurd h (by decide)
    · split at h
      · exact absurd h (by decide)
      · exact absurd h (by decide)

theorem classify_notification_elim {m : Msg} (h : classify m = .notification) :
    ∃ mv, getKey m "method" = some mv ∧ hasKey m "id" = false := by
  by_cases hm : hasKey m "method" = true
  · obtain ⟨mv, hmv⟩ := Option.isSome_iff_exists.mp hm
    by_cases hid : hasKey m "id" = true
    · simp [classify, hm, hid] at h
    · exact ⟨mv, hmv, by simpa using hid⟩
  · simp only [classify, hm, Bool.false_eq_true, if_false] at h
    split at h
    · exact absurd h (by decide)
    · split at h
      · exact absurd h (by decide)
      · exact absurd h (by decide)

theorem classify_success_elim {m : Msg} (h : classify m = .success) :
    getKey m "method" = none ∧ hasKey m "id" = true ∧ hasKey m "result" = true := by
  by_cases hm : hasKey m "method" = true
  · by_cases hid : hasKey m "id" = true <;> simp [classify, hm, hid] at h
  · have hnone := getKey_eq_none_of_hasKey_false (by simpa using hm)
    by_cases hr : hasKey m "id" = true ∧ hasKey m "result" = true
    · exact ⟨hnone, hr.1, hr.2⟩
    · simp only [classify, hm, Bool.false_eq_true, if_false] at h
      rw [if_neg hr] at h
      split at h
      · exact absurd h (by decide)
      · exact absurd h (by decide)

theorem classify_rpcError_elim {m : Msg} (h : classify m = .rpcError) :
    getKey m "method" = none ∧ hasKey m "id" = true ∧ hasKey m "result" = false ∧
      hasKey m "error" = true := by
  by_cases hm : hasKey m "method" = true
  · by_cases hid : hasKey m "id" = true <;> simp [classify, hm, hid] at h
  · have hnone := getKey_eq_none_of_hasKey_false (by simpa using hm)
    by_cases hr : hasKey m "id" = true ∧ hasKey m "result" = true
    · simp [classify, hm, hr] at h
    · by_cases he : hasKey m "id" = true ∧ hasKey m "error" = true
      · refine ⟨hnone, he.1, ?_, he.2⟩
        rcases Bool.eq_false_or_eq_true (hasKey m "result") with h0 | h1
        · exact absurd ⟨he.1, h0⟩ hr
        · exact h1
      · simp only [classify, hm, Bool.false_eq_true, if_false] at h
        rw [if_neg hr, if_neg he] at h
        simp at h

theorem classify_ignored_elim {m : Msg} (h : classify m = .ignored) :
    getKey m "method" = none ∧ ¬(hasKey m "id" = true ∧ hasKey m "result" = true) ∧
      ¬(hasKey m "id" = true ∧ hasKey m "error" = true) := by
  by_cases hm : hasKey m "method" = true
  · by_cases hid : hasKey m "id" = true <;> simp [classify, hm, hid] at h
  · have hnone := getKey_eq_none_of_hasKey_false (by simpa using hm)
    by_cases hr : hasKey m "id" = true ∧ hasKey m "result" = true
    · simp [classify, hm, hr] at h
    · by_cases he : hasKey m "id" = true ∧ hasKey m "error" = true
      · simp only [classify, hm, Bool.false_eq_true, if_false] at h
        rw [if_neg hr, if_pos he] at h
        exact absurd h (by decide)
      · exact ⟨hnone, hr, he⟩

/-! ## Claim theorems -/

/-- Counterexample to C10 as stated: the response `{"id": [], "result": 1}`
has an unhashable id, so its id trivially has no entry in the pending
mapping, yet handling it is not free of observable effects:
`self._pending.get([])` raises `TypeError`, which kills the reader loop —
failing every pending slot with that exception and closing the
notification stream. -/
theorem c10_counterexample :
    classify (fieldsOf [("id", .arr .nil), ("result", .num 1)]) = .success ∧
    handleMessage noHandlers pendingOne
      (fieldsOf [("id", .arr .nil), ("result", .num 1)]) =
      .error (.typeError "unhashable type") ∧
    (readerLoop noHandlers pendingOne
      [fieldsOf [("id", .arr .nil), ("result", .num 1)]] none).notifClosed = true ∧
    lookupSlot (readerLoop noHandlers pendingOne
      [fieldsOf [("id", .arr .nil), ("result", .num 1)]] none).pending (.num 1) =
      some (resolveSlot freshSlot (some (.exn (.typeError "unhashable type")))) := by
  exact ⟨by decide, rfl, by decide, by decide⟩

/-- C10 (amended): an inbound success or error response whose id is
hashable and matches no pending slot under Python key equality is silently
dropped — `_handle_message` returns with the client state entirely
unchanged and raises nothing; a response whose id is an unhashable decoded
list or object instead raises `TypeError` out of message handling. -/
theorem c10_unmatched_response_effect (hs : Handlers) (st : ClientState) (m : Msg)
    (hclass : classify m = .success ∨ classify m = .rpcError) :
    ((reqIdOf m).pyHashable = true → probeSlot st.pending (reqIdOf m) = none →
      handleMessage hs st m = .ok st) ∧
    ((reqIdOf m).pyHashable = false →
      handleMessage hs st m = .error (.typeError "unhashable type")) := by
  constructor
  · intro hh hmiss
    rcases hclass with h | h
    · obtain ⟨hm, hid, hres⟩ := classify_success_elim h
      rw [handleMessage_success hm hid hres hh, hmiss]
    · obtain ⟨hm, hid, hres, herr⟩ := classify_rpcError_elim h
      rw [handleMessage_rpcError hm hid hres herr hh, hmiss]
  · intro hh
    rcases hclass with h | h
    · obtain ⟨hm, hid, hres⟩ := classify_success_elim h
      exact handleMessage_success_unhashable hm hid hres hh
    · obtain ⟨hm, hid, hres, herr⟩ := classify_rpcError_elim h
      exact handleMessage_rpcError_unhashable hm hid hres herr hh

/-- Witness for C10 (amended): the success response `{"id": 5, "result": 1}`
against a client whose only pending id is 1 leaves the state untouched. -/
theorem c10_witness :
    handleMessage noHandlers pendingOne
      (fieldsOf [("id", .num 5), ("result", .num 1)]) = .ok pendingOne :=
  (c10_unmatched_response_effect noHandlers pendingOne
    (fieldsOf [("id", .num 5), ("result", .num 1)])
    (Or.inl (by decide))).1 (by decide) (by decide)

/-- C3: a `request` whose slot is not signalled within its (non-`None`)
timeout raises `CodexConnectionError("Request timeout: <method>")` and pops
its id from the pending mapping, so a later lookup of that id finds no
stale slot. -/
theorem c3_timeout_raises_and_removes (st : ClientState) (reqId : Int)
    (method : String) (hnodup : (st.pending.map Prod.fst).Nodup) :
    requestAwait st reqId method true =
      ({ st with pending := removeSlot st.pending (.num reqId) },
       .raise (.codexConnection ("Request timeout: " ++ method))) ∧
    lookupSlot (removeSlot st.pending (.num reqId)) (.num reqId) = none := by
  exact ⟨by simp [requestAwait], lookupSlot_removeSlot_self hnodup⟩

/-- Witness for C3: a timed-out `thread/start` request with id 1. -/
theorem c3_witness :
    requestAwait pendingOne 1 "thread/start" true =
      ({ pendingOne with pending := [] },
       .raise (.codexConnection "Request timeout: thread/start")) ∧
    lookupSlot (removeSlot pendingOne.pending (.num 1)) (.num 1) = none := by
  have h := c3_timeout_raises_and_removes pendingOne 1 "thread/start" (by decide)
  exact ⟨by rw [h.1]; decide, h.2⟩

/-- C2: if the message stream raises after the reader has handled `msgs`
without an internal failure, every slot whose result cell is still `None`
is resolved with that same exception — result cell set to it, event
signalled — and the notification send side is closed. -/
theorem c2_reader_failure_fails_all_pending (hs : Handlers) (st : ClientState)
    (msgs : List Msg) (e : PyExn)
    (hclean : (processMsgs hs st msgs).2 = none) :
    (readerLoop hs st msgs (some e)).notifClosed = true ∧
    ∀ k p, (k, p) ∈ (processMsgs hs st msgs).1.pending → p.result = none →
      (k, resolveSlot p (some (.exn e))) ∈ (readerLoop hs st msgs (some e)).pending ∧
      (resolveSlot p (some (.exn e))).result = some (.exn e) ∧
      (resolveSlot p (some (.exn e))).eventSet = true := by
  rcases hp : processMsgs hs st msgs with ⟨st', err⟩
  rw [hp] at hclean
  simp only at hclean
  subst hclean
  have hloop : readerLoop hs st msgs (some e) =
      { failPending e st' with notifClosed := true } := by
    rw [readerLoop, hp]
  refine ⟨by rw [hloop], ?_⟩
  intro k p hmem hres
  simp only at hmem
  refine ⟨?_, rfl, rfl⟩
  rw [hloop]
  show (k, resolveSlot p (some (.exn e))) ∈
    (st'.pending.map (fun kp => (kp.1, failSlot e kp.2)))
  have : (k, resolveSlot p (some (.exn e))) =
      (fun kp : Json × PendingRequest => (kp.1, failSlot e kp.2)) (k, p) := by
    simp [failSlot, hres]
  rw [this]
  exact List.mem_map_of_mem _ hmem

/-- Witness for C2: three pending requests, an empty processed prefix, and
a decode failure; the id-2 slot is failed with that exception. -/
theorem c2_witness :
    ((Json.num 2), resolveSlot freshSlot (some (.exn (.codexJSONDecode "bad")))) ∈
      (readerLoop noHandlers pendingThree [] (some (.codexJSONDecode "bad"))).pending := by
  exact ((c2_reader_failure_fails_all_pending noHandlers pendingThree []
    (.codexJSONDecode "bad") (by decide)).2 (Json.num 2) freshSlot (by decide) rfl).1

/-- C8: when the output stream ends without a decode failure, the reader
waits for the process; a `None` or zero exit code ends the message stream
without error, while a non-zero exit code raises `CodexProcessError`
carrying exactly that code. -/
theorem c8_exit_code_handling (maxBuf : Nat) (jsonLoads : String → Option Json)
    (chunks : List (List Char)) (rc : Option Int) (buf : List Char) (msgs : List Json)
    (hclean : runChunks maxBuf jsonLoads [] chunks = (buf, msgs, none)) :
    (rc = none → readMessagesRun maxBuf jsonLoads chunks rc = (msgs, none)) ∧
    (rc = some 0 → readMessagesRun maxBuf jsonLoads chunks rc = (msgs, none)) ∧
    (∀ c : Int, c ≠ 0 → rc = some c →
      readMessagesRun maxBuf jsonLoads chunks rc = (msgs, some (.codexProcess c))) := by
  refine ⟨?_, ?_, ?_⟩
  · intro h
    subst h
    simp [readMessagesRun, hclean, finishRead]
  · intro h
    subst h
    simp [readMessagesRun, hclean, finishRead]
  · intro c hc h
    subst h
    simp [readMessagesRun, hclean, finishRead, hc]

/-- Witness for C8: an empty stream followed by exit code 3 raises a
process error with code 3; exit code 0 and a vanished process do not. -/
theorem c8_witness :
    readMessagesRun 10 (fun _ => none) [] (some 3) =
      ([], some (.codexProcess 3)) ∧
    readMessagesRun 10 (fun _ => none) [] (some 0) = ([], none) ∧
    readMessagesRun 10 (fun _ => none) [] none = ([], none) := by
  have h := c8_exit_code_handling 10 (fun _ => none) [] (some 3) [] [] rfl
  have h0 := c8_exit_code_handling 10 (fun _ => none) [] (some 0) [] [] rfl
  have hn := c8_exit_code_handling 10 (fun _ => none) [] none [] [] rfl
  exact ⟨h.2.2 3 (by decide) rfl, h0.2.1 rfl, hn.1 rfl⟩

theorem splitFirstNL_eq_none {l : List Char} (h : '\n' ∉ l) :
    splitFirstNL l = none := by
  induction l with
  | nil => rfl
  | cons c rest ih =>
      simp only [List.mem_cons, not_or] at h
      have hc : ¬ c = '\n' := fun hc => h.1 hc.symm
      simp [splitFirstNL, hc, ih h.2]

theorem drainLines_no_newline (jsonLoads : String → Option Json) {b : List Char}
    (h : '\n' ∉ b) : drainLines jsonLoads b = (b, [], none) := by
  rw [drainLines, splitFirstNL_eq_none h]

theorem runChunks_overflow (maxBuf : Nat) (jsonLoads : String → Option Json) :
    ∀ (chunks : List (List Char)) (buf : List Char),
    '\n' ∉ buf → (∀ c ∈ chunks, '\n' ∉ c) → (∀ c ∈ chunks, c ≠ []) →
    maxBuf < buf.length + (chunks.map List.length).sum → buf.length ≤ maxBuf →
    runChunks maxBuf jsonLoads buf chunks =
      ([], [], some (.codexJSONDecode "<buffer overflow>"))
  | [], buf, _, _, _, hlt, hle => by
      simp only [List.map_nil, List.sum_nil, Nat.add_zero] at hlt
      omega
  | c :: cs, buf, hbnl, hnl, hne, hlt, hle => by
      have hc0 : c ≠ [] := hne c (List.mem_cons_self _ _)
      rw [runChunks, if_neg hc0]
      by_cases hov : (buf ++ c).length > maxBuf
      · have hov' : maxBuf < buf.length + c.length := by
          simpa [List.length_append] using hov
        simp [feedChunk, hov']
      · have hcnl : '\n' ∉ buf ++ c := by
          simp only [List.mem_append, not_or]
          exact ⟨hbnl, hnl c (List.mem_cons_self _ _)⟩
        have hdr : feedChunk maxBuf jsonLoads buf c = (buf ++ c, [], none) := by
          simp only [feedChunk, hov, if_false]
          exact drainLines_no_newline jsonLoads hcnl
        rw [hdr]
        simp only
        rw [runChunks_overflow maxBuf jsonLoads cs (buf ++ c) hcnl
          (fun d hd => hnl d (List.mem_cons_of_mem _ hd))
          (fun d hd => hne d (List.mem_cons_of_mem _ hd))
          (by simp only [List.map_cons, List.sum_cons, List.length_append] at hlt ⊢; omega)
          (by simp only [List.length_append] at hov ⊢; omega)]
        simp

/-- C7: feeding non-empty newline-free chunks whose accumulated length
exceeds the configured maximum makes the reader raise a decode error
(`<buffer overflow>`), yield no message at all, and reset the accumulation
buffer to empty before raising. -/
theorem c7_overflow_raises_decode_error (maxBuf : Nat)
    (jsonLoads : String → Option Json) (chunks : List (List Char)) (rc : Option Int)
    (hnl : ∀ c ∈ chunks, '\n' ∉ c) (hne : ∀ c ∈ chunks, c ≠ [])
    (hlen : maxBuf < (chunks.map List.length).sum) :
    runChunks maxBuf jsonLoads [] chunks =
      ([], [], some (.codexJSONDecode "<buffer overflow>")) ∧
    readMessagesRun maxBuf jsonLoads chunks rc =
      ([], some (.codexJSONDecode "<buffer overflow>")) := by
  have hrun := runChunks_overflow maxBuf jsonLoads chunks []
    (by simp) hnl hne (by simpa using hlen) (by simp)
  exact ⟨hrun, by simp [readMessagesRun, hrun]⟩

/-- Witness for C7: two 2-byte newline-free chunks against a 3-byte limit
overflow without yielding anything, for any decoder and exit code. -/
theorem c7_witness :
    runChunks 3 (fun _ => none) [] [['a', 'b'], ['c', 'd']] =
      ([], [], some (.codexJSONDecode "<buffer overflow>")) ∧
    readMessagesRun 3 (fun _ => none) [['a', 'b'], ['c', 'd']] none =
      ([], some (.codexJSONDecode "<buffer overflow>")) := by
  exact c7_overflow_raises_decode_error 3 (fun _ => none) [['a', 'b'], ['c', 'd']] none
    (by decide) (by decide) (by decide)

theorem hrw_generic_ok {hs : Handlers} {method : String} {rid : Json}
    {params : Option Json} {h : String → Option Json → HOutcome Json} {v : Json}
    (hreq : hs.request = some h) (hv : h method params = .ok v) :
    handleRequestWrites hs method rid params = [responseMsg rid v] := by
  simp [handleRequestWrites, hreq, hv]

theorem hrw_generic_raises {hs : Handlers} {method : String} {rid : Json}
    {params : Option Json} {h : String → Option Json → HOutcome Json} {e : String}
    (hreq : hs.request = some h) (hv : h method params = .raises e) :
    handleRequestWrites hs method rid params = [errorMsg rid (-32000) e] := by
  simp [handleRequestWrites, hreq, hv]

theorem hrw_unknown {hs : Handlers} {method : String} {rid : Json}
    {params : Option Json} (hreq : hs.request = none)
    (h1 : method ≠ "item/commandExecution/requestApproval")
    (h2 : method ≠ "item/fileChange/requestApproval")
    (h3 : method ≠ "item/tool/requestUserInput")
    (h4 : method ≠ "item/tool/call") :
    handleRequestWrites hs method rid params =
      [errorMsg rid (-32601) ("No handler for " ++ method)] := by
  simp [handleRequestWrites, hreq, h1, h2, h3, h4]

theorem hrw_cmd_none {hs : Handlers} {rid : Json} {params : Option Json}
    (hreq : hs.request = none) (hc : hs.commandApproval = none) :
    handleRequestWrites hs "item/commandExecution/requestApproval" rid params =
      [errorMsg rid (-32601) "No command approval handler"] := by
  simp [handleRequestWrites, hreq, commandApprovalWrites, hc]

theorem hrw_cmd_raises {hs : Handlers} {rid : Json} {params : Option Json}
    {h : Json → HOutcome Json} {e : String}
    (hreq : hs.request = none) (hc : hs.commandApproval = some h)
    (he : h (paramsOrEmpty params) = .raises e) :
    handleRequestWrites hs "item/commandExecution/requestApproval" rid params =
      [errorMsg rid (-32000) e] := by
  simp [handleRequestWrites, hreq, commandApprovalWrites, hc, he]

theorem hrw_cmd_ok {hs : Handlers} {rid : Json} {params : Option Json}
    {h : Json → HOutcome Json} {v : Json}
    (hreq : hs.request = none) (hc : hs.commandApproval = some h)
    (hv : h (paramsOrEmpty params) = .ok v) :
    handleRequestWrites hs "item/commandExecution/requestApproval" rid params =
      [responseMsg rid (if v.isObj then v else .obj (.cons "decision" v .nil))] := by
  simp [handleRequestWrites, hreq, commandApprovalWrites, hc, hv]

theorem hrw_fc_none {hs : Handlers} {rid : Json} {params : Option Json}
    (hreq : hs.request = none) (hc : hs.fileChangeApproval = none) :
    handleRequestWrites hs "item/fileChange/requestApproval" rid params =
      [errorMsg rid (-32601) "No file-change approval handler"] := by
  simp [handleRequestWrites, hreq, fileChangeApprovalWrites, hc]

theorem hrw_fc_raises {hs : Handlers} {rid : Json} {params : Option Json}
    {h : Json → HOutcome Json} {e : String}
    (hreq : hs.request = none) (hc : hs.fileChangeApproval = some h)
    (he : h (paramsOrEmpty params) = .raises e) :
    handleRequestWrites hs "item/fileChange/requestApproval" rid params =
      [errorMsg rid (-32000) e] := by
  simp [handleRequestWrites, hreq, fileChangeApprovalWrites, hc, he]

theorem hrw_fc_ok {hs : Handlers} {rid : Json} {params : Option Json}
    {h : Json → HOutcome Json} {v : Json}
    (hreq : hs.request = none) (hc : hs.fileChangeApproval = some h)
    (hv : h (paramsOrEmpty params) = .ok v) :
    handleRequestWrites hs "item/fileChange/requestApproval" rid params =
      [responseMsg rid (if v.isObj then v else .obj (.cons "decision" v .nil))] := by
  simp [handleRequestWrites, hreq, fileChangeApprovalWrites, hc, hv]

theorem hrw_ti_none {hs : Handlers} {rid : Json} {params : Option Json}
    (hreq : hs.request = none) (hc : hs.toolInput = none) :
    handleRequestWrites hs "item/tool/requestUserInput" rid params =
      [errorMsg rid (-32601) "No tool input handler"] := by
  simp [handleRequestWrites, hreq, toolInputWrites, hc]

theorem hrw_ti_raises {hs : Handlers} {rid : Json} {params : Option Json}
    {h : Json → HOutcome Json} {e : String}
    (hreq : hs.request = none) (hc : hs.toolInput = some h)
    (he : h (paramsOrEmpty params) = .raises e) :
    handleRequestWrites hs "item/tool/requestUserInput" rid params =
      [errorMsg rid (-32000) e] := by
  simp [handleRequestWrites, hreq, toolInputWrites, hc, he]

theorem hrw_ti_ok {hs : Handlers} {rid : Json} {params : Option Json}
    {h : Json → HOutcome Json} {v : Json}
    (hreq : hs.request = none) (hc : hs.toolInput = some h)
    (hv : h (paramsOrEmpty params) = .ok v) :
    handleRequestWrites hs "item/tool/requestUserInput" rid params =
      [responseMsg rid v] := by
  simp [handleRequestWrites, hreq, toolInputWrites, hc, hv]

theorem hrw_dt_none {hs : Handlers} {rid : Json} {params : Option Json}
    (hreq : hs.request = none) (hc : hs.dynamicTool = none) :
    handleRequestWrites hs "item/tool/call" rid params =
      [errorMsg rid (-32601) "No dynamic tool handler"] := by
  simp [handleRequestWrites, hreq, dynamicToolWrites, hc]

theorem hrw_dt_raises {hs : Handlers} {rid : Json} {params : Option Json}
    {h : Json → HOutcome (Json ⊕ (String × Bool))} {e : String}
    (hreq : hs.request = none) (hc : hs.dynamicTool = some h)
    (he : h (paramsOrEmpty params) = .raises e) :
    handleRequestWrites hs "item/tool/call" rid params =
      [errorMsg rid (-32000) e] := by
  simp [handleRequestWrites, hreq, dynamicToolWrites, hc, he]

theorem hrw_dt_ok_dict {hs : Handlers} {rid : Json} {params : Option Json}
    {h : Json → HOutcome (Json ⊕ (String × Bool))} {v : Json}
    (hreq : hs.request = none) (hc : hs.dynamicTool = some h)
    (hv : h (paramsOrEmpty params) = .ok (.inl v)) :
    handleRequestWrites hs "item/tool/call" rid params = [responseMsg rid v] := by
  simp [handleRequestWrites, hreq, dynamicToolWrites, hc, hv]

theorem hrw_dt_ok_tuple {hs : Handlers} {rid : Json} {params : Option Json}
    {h : Json → HOutcome (Json ⊕ (String × Bool))} {out : String} {succ : Bool}
    (hreq : hs.request = none) (hc : hs.dynamicTool = some h)
    (hv : h (paramsOrEmpty params) = .ok (.inr (out, succ))) :
    handleRequestWrites hs "item/tool/call" rid params =
      [responseMsg rid
        (.obj (fieldsOf [("output", .str out), ("success", .bool succ)]))] := by
  simp [handleRequestWrites, hreq, dynamicToolWrites, hc, hv]

theorem handleRequestWrites_shape (hs : Handlers) (method : String) (rid : Json)
    (params : Option Json) :
    ∃ r, handleRequestWrites hs method rid params = [r] ∧
      ((∃ res, r = responseMsg rid res) ∨
       (∃ e, r = errorMsg rid (-32000) e) ∨
       (∃ e, r = errorMsg rid (-32601) e)) := by
  rcases hreq : hs.request with _ | gh
  · by_cases h1 : method = "item/commandExecution/requestApproval"
    · subst h1
      rcases hc : hs.commandApproval with _ | ch
      · exact ⟨_, hrw_cmd_none hreq hc, Or.inr (Or.inr ⟨_, rfl⟩)⟩
      · rcases hv : ch (paramsOrEmpty params) with v | e
        · exact ⟨_, hrw_cmd_ok hreq hc hv, Or.inl ⟨_, rfl⟩⟩
        · exact ⟨_, hrw_cmd_raises hreq hc hv, Or.inr (Or.inl ⟨_, rfl⟩)⟩
    · by_cases h2 : method = "item/fileChange/requestApproval"
      · subst h2
        rcases hc : hs.fileChangeApproval with _ | ch
        · exact ⟨_, hrw_fc_none hreq hc, Or.inr (Or.inr ⟨_, rfl⟩)⟩
        · rcases hv : ch (paramsOrEmpty params) with v | e
          · exact ⟨_, hrw_fc_ok hreq hc hv, Or.inl ⟨_, rfl⟩⟩
          · exact ⟨_, hrw_fc_raises hreq hc hv, Or.inr (Or.inl ⟨_, rfl⟩)⟩
      · by_cases h3 : method = "item/tool/requestUserInput"
        · subst h3
          rcases hc : hs.toolInput with _ | ch
          · exact ⟨_, hrw_ti_none hreq hc, Or.inr (Or.inr ⟨_, rfl⟩)⟩
          · rcases hv : ch (paramsOrEmpty params) with v | e
            · exact ⟨_, hrw_ti_ok hreq hc hv, Or.inl ⟨_, rfl⟩⟩
            · exact ⟨_, hrw_ti_raises hreq hc hv, Or.inr (Or.inl ⟨_, rfl⟩)⟩
        · by_cases h4 : method = "item/tool/call"
          · subst h4
            rcases hc : hs.dynamicTool with _ | ch
            · exact ⟨_, hrw_dt_none hreq hc, Or.inr (Or.inr ⟨_, rfl⟩)⟩
            · rcases hv : ch (paramsOrEmpty params) with v | e
              · rcases v with v | ⟨out, succ⟩
                · exact ⟨_, hrw_dt_ok_dict hreq hc hv, Or.inl ⟨_, rfl⟩⟩
                · exact ⟨_, hrw_dt_ok_tuple hreq hc hv, Or.inl ⟨_, rfl⟩⟩
              · exact ⟨_, hrw_dt_raises hreq hc hv, Or.inr (Or.inl ⟨_, rfl⟩)⟩
          · exact ⟨_, hrw_unknown hreq h1 h2 h3 h4, Or.inr (Or.inr ⟨_, rfl⟩)⟩
  · rcases hv : gh method params with v | e
    · exact ⟨_, hrw_generic_ok hreq hv, Or.inl ⟨_, rfl⟩⟩
    · exact ⟨_, hrw_generic_raises hreq hv, Or.inr (Or.inl ⟨_, rfl⟩)⟩

/-- C5: every server-initiated request (a message with `method` and `id`)
is answered with exactly one outbound reply, and no handler failure escapes
`_handle_message`: the reply is `{id, result}` when the effective handler
returns normally, a `-32000` error carrying the exception's message when it
raises, and a `-32601` error when no handler is registered for the method
(specific handler missing, or method unknown with no generic handler). -/
theorem c5_server_request_replies (hs : Handlers) (st : ClientState) (m : Msg)
    (mv : Json) (hmv : getKey m "method" = some mv) (hid : hasKey m "id" = true) :
    (∃ r, handleMessage hs st m = .ok { st with outbox := st.outbox ++ [r] } ∧
      ((∃ res, r = responseMsg (reqIdOf m) res) ∨
       (∃ e, r = errorMsg (reqIdOf m) (-32000) e) ∨
       (∃ e, r = errorMsg (reqIdOf m) (-32601) e))) ∧
    (∀ h v, hs.request = some h → h (pyStr mv) (pyGet m "params") = .ok v →
      handleMessage hs st m =
        .ok { st with outbox := st.outbox ++ [responseMsg (reqIdOf m) v] }) ∧
    (∀ h e, hs.request = some h → h (pyStr mv) (pyGet m "params") = .raises e →
      handleMessage hs st m =
        .ok { st with outbox := st.outbox ++ [errorMsg (reqIdOf m) (-32000) e] }) ∧
    (hs.request = none →
      pyStr mv ≠ "item/commandExecution/requestApproval" →
      pyStr mv ≠ "item/fileChange/requestApproval" →
      pyStr mv ≠ "item/tool/requestUserInput" →
      pyStr mv ≠ "item/tool/call" →
      handleMessage hs st m =
        .ok { st with outbox := st.outbox ++
          [errorMsg (reqIdOf m) (-32601) ("No handler for " ++ pyStr mv)] }) ∧
    (hs.request = none → pyStr mv = "item/commandExecution/requestApproval" →
      hs.commandApproval = none →
      handleMessage hs st m = .ok { st with outbox := st.outbox ++
        [errorMsg (reqIdOf m) (-32601) "No command approval handler"] }) ∧
    (hs.request = none → pyStr mv = "item/fileChange/requestApproval" →
      hs.fileChangeApproval = none →
      handleMessage hs st m = .ok { st with outbox := st.outbox ++
        [errorMsg (reqIdOf m) (-32601) "No file-change approval handler"] }) ∧
    (hs.request = none → pyStr mv = "item/tool/requestUserInput" →
      hs.toolInput = none →
      handleMessage hs st m = .ok { st with outbox := st.outbox ++
        [errorMsg (reqIdOf m) (-32601) "No tool input handler"] }) ∧
    (hs.request = none → pyStr mv = "item/tool/call" →
      hs.dynamicTool = none →
      handleMessage hs st m = .ok { st with outbox := st.outbox ++
        [errorMsg (reqIdOf m) (-32601) "No dynamic tool handler"] }) ∧
    (∀ h e, hs.request = none → pyStr mv = "item/commandExecution/requestApproval" →
      hs.commandApproval = some h →
      h (paramsOrEmpty (pyGet m "params")) = .raises e →
      handleMessage hs st m = .ok { st with outbox := st.outbox ++
        [errorMsg (reqIdOf m) (-32000) e] }) ∧
    (∀ h e, hs.request = none → pyStr mv = "item/fileChange/requestApproval" →
      hs.fileChangeApproval = some h →
      h (paramsOrEmpty (pyGet m "params")) = .raises e →
      handleMessage hs st m = .ok { st with outbox := st.outbox ++
        [errorMsg (reqIdOf m) (-32000) e] }) ∧
    (∀ h e, hs.request = none → pyStr mv = "item/tool/requestUserInput" →
      hs.toolInput = some h →
      h (paramsOrEmpty (pyGet m "params")) = .raises e →
      handleMessage hs st m = .ok { st with outbox := st.outbox ++
        [errorMsg (reqIdOf m) (-32000) e] }) ∧
    (∀ h e, hs.request = none → pyStr mv = "item/tool/call" →
      hs.dynamicTool = some h →
      h (paramsOrEmpty (pyGet m "params")) = .raises e →
      handleMessage hs st m = .ok { st with outbox := st.outbox ++
        [errorMsg (reqIdOf m) (-32000) e] }) := by
  have hsr := @handleMessage_serverRequest hs st m mv hmv hid
  refine ⟨?_, ?_, ?_, ?_, ?_, ?_, ?_, ?_, ?_, ?_, ?_, ?_⟩
  · obtain ⟨r, hr, hshape⟩ :=
      handleRequestWrites_shape hs (pyStr mv) (reqIdOf m) (pyGet m "params")
    exact ⟨r, by rw [hsr, hr], hshape⟩
  · intro h v hreq hv
    rw [hsr, hrw_generic_ok hreq hv]
  · intro h e hreq hv
    rw [hsr, hrw_generic_raises hreq hv]
  · intro hreq h1 h2 h3 h4
    rw [hsr, hrw_unknown hreq h1 h2 h3 h4]
  · intro hreq hm hc
    rw [hsr, hm, hrw_cmd_none hreq hc]
  · intro hreq hm hc
    rw [hsr, hm, hrw_fc_none hreq hc]
  · intro hreq hm hc
    rw [hsr, hm, hrw_ti_none hreq hc]
  · intro hreq hm hc
    rw [hsr, hm, hrw_dt_none hreq hc]
  · intro h e hreq hm hc he
    rw [hsr, hm, hrw_cmd_raises hreq hc he]
  · intro h e hreq hm hc he
    rw [hsr, hm, hrw_fc_raises hreq hc he]
  · intro h e hreq hm hc he
    rw [hsr, hm, hrw_ti_raises hreq hc he]
  · intro h e hreq hm hc he
    rw [hsr, hm, hrw_dt_raises hreq hc he]

/-- Witness for C5: a generic handler raising `Exception("boom")` on server
request id 7 produces exactly the error reply with code `-32000` and
message `"boom"`, and nothing escapes. -/
theorem c5_witness :
    handleMessage hsRaise emptyClient
      (fieldsOf [("id", .num 7), ("method", .str "thread/x")]) =
      .ok { emptyClient with outbox := [errorMsg (.num 7) (-32000) "boom"] } := by
  have h := (c5_server_request_replies hsRaise emptyClient
    (fieldsOf [("id", .num 7), ("method", .str "thread/x")])
    (.str "thread/x") (by decide) (by decide)).2.2.1
  have h2 := h (fun _ _ => .raises "boom") "boom" rfl rfl
  simpa using h2

/-- C6: an approval handler's non-dict return value is wrapped as
`{"decision": <value>}` in the reply's result, a dict is passed through
unchanged, and a dynamic-tool 2-tuple `(output, success)` is normalised to
`{"output": output, "success": success}` (a dict return is passed
through). -/
theorem c6_result_wrapping (hs : Handlers) (rid : Json) (params : Option Json) :
    (∀ h v, hs.request = none → hs.commandApproval = some h →
      h (paramsOrEmpty params) = .ok v →
      (v.isObj = false →
        handleRequestWrites hs "item/commandExecution/requestApproval" rid params =
          [responseMsg rid (.obj (.cons "decision" v .nil))]) ∧
      (v.isObj = true →
        handleRequestWrites hs "item/commandExecution/requestApproval" rid params =
          [responseMsg rid v])) ∧
    (∀ h v, hs.request = none → hs.fileChangeApproval = some h →
      h (paramsOrEmpty params) = .ok v →
      (v.isObj = false →
        handleRequestWrites hs "item/fileChange/requestApproval" rid params =
          [responseMsg rid (.obj (.cons "decision" v .nil))]) ∧
      (v.isObj = true →
        handleRequestWrites hs "item/fileChange/requestApproval" rid params =
          [responseMsg rid v])) ∧
    (∀ h out succ, hs.request = none → hs.dynamicTool = some h →
      h (paramsOrEmpty params) = .ok (.inr (out, succ)) →
      handleRequestWrites hs "item/tool/call" rid params =
        [responseMsg rid
          (.obj (fieldsOf [("output", .str out), ("success", .bool succ)]))]) ∧
    (∀ h v, hs.request = none → hs.dynamicTool = some h →
      h (paramsOrEmpty params) = .ok (.inl v) →
      handleRequestWrites hs "item/tool/call" rid params = [responseMsg rid v]) := by
  refine ⟨?_, ?_, ?_, ?_⟩
  · intro h v hreq hc hv
    constructor <;> intro hobj <;> rw [hrw_cmd_ok hreq hc hv, hobj] <;> simp
  · intro h v hreq hc hv
    constructor <;> intro hobj <;> rw [hrw_fc_ok hreq hc hv, hobj] <;> simp
  · intro h out succ hreq hc hv
    rw [hrw_dt_ok_tuple hreq hc hv]
  · intro h v hreq hc hv
    rw [hrw_dt_ok_dict hreq hc hv]

/-- Witness for C6: the spec's approval scenario — a registered command
approval handler returning the string `"accept"` for request id 99 yields
the reply `{"id": 99, "result": {"decision": "accept"}}`. -/
theorem c6_witness :
    handleRequestWrites hsAccept "item/commandExecution/requestApproval"
      (.num 99) (some (.obj (.cons "threadId" (.str "thr") .nil))) =
      [responseMsg (.num 99) (.obj (.cons "decision" (.str "accept") .nil))] := by
  exact (((c6_result_wrapping hsAccept (.num 99)
      (some (.obj (.cons "threadId" (.str "thr") .nil)))).1
    (fun _ => .ok (.str "accept")) (.str "accept") rfl rfl rfl).1 rfl)

/-- Counterexample to C1 as stated: the message `{"id": 1, "error": "boom"}`
has `id` and `error` and a matching pending slot, yet it does not resolve
that slot with a structured RPC error — `message["error"] or {}` keeps the
truthy string, on which `.get("code", ...)` raises `AttributeError`, which
propagates out of `_handle_message` (killing the reader loop) with the slot
left untouched. -/
theorem c1_counterexample :
    classify (fieldsOf [("id", .num 1), ("error", .str "boom")]) = .rpcError ∧
    lookupSlot pendingOne.pending
      (reqIdOf (fieldsOf [("id", .num 1), ("error", .str "boom")])) = some freshSlot ∧
    handleMessage noHandlers pendingOne
      (fieldsOf [("id", .num 1), ("error", .str "boom")]) =
      .error (.attributeError "get") := by
  exact ⟨by decide, by decide, rfl⟩

/-- C1 (amended): every decoded inbound message matches exactly one clause
of the key-presence precedence order, with the stated routing — server
requests (method+id) go only to the dispatcher, notifications (method, no
id) only to the notification queue, success responses (id+result) resolve
only the pending slot matching their id under Python key equality, error
responses (id+error) resolve only the matching slot with the structured
RPC error *provided* the error value yields one (object or falsy, with a
convertible code), and messages matching no clause are ignored unchanged;
in either response clause an unhashable id (a decoded list or object)
instead raises `TypeError` out of message handling before the pending
mapping or the error value is touched. -/
theorem c1_classification (hs : Handlers) (st : ClientState) (m : Msg) :
    (classify m = .serverRequest → ∃ st',
       handleMessage hs st m = .ok st' ∧ st'.pending = st.pending ∧
       st'.notifSent = st.notifSent ∧ ∃ r, st'.outbox = st.outbox ++ [r]) ∧
    (classify m = .notification →
       handleMessage hs st m = .ok { st with notifSent := st.notifSent ++ [m] }) ∧
    (classify m = .success →
       ((reqIdOf m).pyHashable = false →
         handleMessage hs st m = .error (.typeError "unhashable type")) ∧
       ((reqIdOf m).pyHashable = true → ∃ st',
         handleMessage hs st m = .ok st' ∧ st'.notifSent = st.notifSent ∧
         st'.outbox = st.outbox ∧
         (probeSlot st.pending (reqIdOf m) = none → st' = st) ∧
         (∀ p, probeSlot st.pending (reqIdOf m) = some p →
             probeSlot st'.pending (reqIdOf m) = some (resolveSlot p (successCell m)) ∧
             (resolveSlot p (successCell m)).eventSet = true) ∧
         (∀ k, pyKeyEq k (reqIdOf m) = false →
             probeSlot st'.pending k = probeSlot st.pending k))) ∧
    (classify m = .rpcError →
       ((reqIdOf m).pyHashable = false →
         handleMessage hs st m = .error (.typeError "unhashable type")) ∧
       ((reqIdOf m).pyHashable = true →
         (probeSlot st.pending (reqIdOf m) = none → handleMessage hs st m = .ok st) ∧
         (∀ p c emsg d, probeSlot st.pending (reqIdOf m) = some p →
             buildRPCError (errValOf m) = .ok (.rpc c emsg d) →
             ∃ st', handleMessage hs st m = .ok st' ∧ st'.notifSent = st.notifSent ∧
               st'.outbox = st.outbox ∧
               probeSlot st'.pending (reqIdOf m) =
                 some (resolveSlot p (some (.rpc c emsg d))) ∧
               (∀ k, pyKeyEq k (reqIdOf m) = false →
                   probeSlot st'.pending k = probeSlot st.pending k)))) ∧
    (classify m = .ignored → handleMessage hs st m = .ok st) := by
  refine ⟨?_, ?_, ?_, ?_, ?_⟩
  · intro h
    obtain ⟨mv, hmv, hid⟩ := classify_serverRequest_elim h
    obtain ⟨r, hr, _⟩ :=
      handleRequestWrites_shape hs (pyStr mv) (reqIdOf m) (pyGet m "params")
    exact ⟨{ st with outbox := st.outbox ++ [r] },
      by rw [handleMessage_serverRequest hmv hid, hr], rfl, rfl, r, rfl⟩
  · intro h
    obtain ⟨mv, hmv, hid⟩ := classify_notification_elim h
    exact handleMessage_notification hmv hid
  · intro h
    obtain ⟨hm, hid, hres⟩ := classify_success_elim h
    refine ⟨fun hh => handleMessage_success_unhashable hm hid hres hh, ?_⟩
    intro hh
    rcases hp : probeSlot st.pending (reqIdOf m) with _ | p
    · refine ⟨st, ?_, rfl, rfl, fun _ => rfl, ?_, fun _ _ => rfl⟩
      · rw [handleMessage_success hm hid hres hh, hp]
      · intro p hp'
        exact absurd hp' (by simp)
    · refine ⟨{ st with pending := resolveAt st.pending (reqIdOf m) (successCell m) },
        ?_, rfl, rfl, ?_, ?_, ?_⟩
      · rw [handleMessage_success hm hid hres hh, hp]
      · intro hnone
        exact absurd hnone (by simp)
      · intro p' hp'
        cases hp'
        exact ⟨probeSlot_resolveAt_self hp _, rfl⟩
      · intro k hk
        exact probeSlot_resolveAt_ne hk _
  · intro h
    obtain ⟨hm, hid, hres, herr⟩ := classify_rpcError_elim h
    refine ⟨fun hh => handleMessage_rpcError_unhashable hm hid hres herr hh, ?_⟩
    intro hh
    constructor
    · intro hmiss
      rw [handleMessage_rpcError hm hid hres herr hh, hmiss]
    · intro p c emsg d hp hb
      refine ⟨{ st with
          pending := resolveAt st.pending (reqIdOf m) (some (.rpc c emsg d)) },
        ?_, rfl, rfl, ?_, ?_⟩
      · rw [handleMessage_rpcError hm hid hres herr hh, hp, hb]
      · exact probeSlot_resolveAt_self hp _
      · intro k hk
        exact probeSlot_resolveAt_ne hk _
  · intro h
    obtain ⟨hm, h2, h3⟩ := classify_ignored_elim h
    exact handleMessage_ignored hm h2 h3

/-- Witness for C1 (amended): the notification `{"method": "turn/completed"}`
is appended to the notification queue and nothing else changes. -/
theorem c1_witness :
    handleMessage noHandlers emptyClient
      (fieldsOf [("method", .str "turn/completed")]) =
      .ok { emptyClient with
        notifSent := [fieldsOf [("method", .str "turn/completed")]] } := by
  have h := (c1_classification noHandlers emptyClient
    (fieldsOf [("method", .str "turn/completed")])).2.1 (by decide)
  simpa using h

theorem pyKeyEq_symm (a b : Json) : pyKeyEq a b = pyKeyEq b a := by
  simp [pyKeyEq, eq_comm]

theorem respondsTo_true_elim {m : Msg} {rid : Json} (h : respondsTo m rid = true) :
    hasKey m "method" = false ∧
      (∃ x, getKey m "id" = some x ∧ pyKeyEq x rid = true) ∧
      (hasKey m "result" = true ∨ hasKey m "error" = true) := by
  simp only [respondsTo, Bool.and_eq_true, Bool.not_eq_true', Bool.or_eq_true] at h
  refine ⟨h.1.1, ?_, h.2⟩
  have h2 := h.1.2
  rcases hx : getKey m "id" with _ | x
  · rw [hx] at h2
    simp at h2
  · rw [hx] at h2
    exact ⟨x, rfl, h2⟩

theorem respondsTo_false_ne {m : Msg} {rid x : Json}
    (hm : hasKey m "method" = false) (hx : getKey m "id" = some x)
    (hre : hasKey m "result" = true ∨ hasKey m "error" = true)
    (h : respondsTo m rid = false) : pyKeyEq x rid = false := by
  cases hb : pyKeyEq x rid
  · rfl
  · exfalso
    simp only [respondsTo, hm, hx, Bool.not_false, Bool.true_and] at h
    rw [hb] at h
    rcases hre with h1 | h1 <;> simp [h1] at h

theorem handleMessage_not_responds {hs : Handlers} {st st' : ClientState} {m : Msg}
    {rid : Json} (hok : handleMessage hs st m = .ok st')
    (hnr : respondsTo m rid = false) :
    probeSlot st'.pending rid = probeSlot st.pending rid := by
  rcases hmv : getKey m "method" with _ | mv
  · have hm : hasKey m "method" = false := by simp [hasKey, hmv]
    by_cases hid : hasKey m "id" = true
    · obtain ⟨x, hx⟩ := Option.isSome_iff_exists.mp hid
      have hrx : reqIdOf m = x := by simp [reqIdOf, hx]
      by_cases hres : hasKey m "result" = true
      · have hne : pyKeyEq x rid = false := respondsTo_false_ne hm hx (Or.inl hres) hnr
        have hne' : pyKeyEq rid (reqIdOf m) = false := by
          rw [hrx, pyKeyEq_symm]
          exact hne
        cases hh : (reqIdOf m).pyHashable
        · rw [handleMessage_success_unhashable hmv hid hres hh] at hok
          exact absurd hok (by simp)
        · rw [handleMessage_success hmv hid hres hh] at hok
          rcases hp : probeSlot st.pending (reqIdOf m) with _ | p
          · rw [hp] at hok
            cases hok
            rfl
          · rw [hp] at hok
            cases hok
            show probeSlot (resolveAt st.pending (reqIdOf m) (successCell m)) rid = _
            exact probeSlot_resolveAt_ne hne' _
      · by_cases herr : hasKey m "error" = true
        · have hne : pyKeyEq x rid = false :=
            respondsTo_false_ne hm hx (Or.inr herr) hnr
          have hne' : pyKeyEq rid (reqIdOf m) = false := by
            rw [hrx, pyKeyEq_symm]
            exact hne
          have hres' : hasKey m "result" = false := by simpa using hres
          cases hh : (reqIdOf m).pyHashable
          · rw [handleMessage_rpcError_unhashable hmv hid hres' herr hh] at hok
            exact absurd hok (by simp)
          · rw [handleMessage_rpcError hmv hid hres' herr hh] at hok
            rcases hp : probeSlot st.pending (reqIdOf m) with _ | p
            · rw [hp] at hok
              cases hok
              rfl
            · rw [hp] at hok
              rcases hb : buildRPCError (errValOf m) with pe | sv
              · rw [hb] at hok
                exact absurd hok (by simp)
              · rw [hb] at hok
                cases hok
                show probeSlot (resolveAt st.pending (reqIdOf m) (some sv)) rid = _
                exact probeSlot_resolveAt_ne hne' _
        · rw [handleMessage_ignored hmv
            (fun hc => absurd hc.2 (by simpa using hres))
            (fun hc => absurd hc.2 (by simpa using herr))] at hok
          cases hok
          rfl
    · rw [handleMessage_ignored hmv (fun hc => hid hc.1) (fun hc => hid hc.1)] at hok
      cases hok
      rfl
  · by_cases hid : hasKey m "id" = true
    · rw [handleMessage_serverRequest hmv hid] at hok
      cases hok
      rfl
    · rw [handleMessage_notification hmv (by simpa using hid)] at hok
      cases hok
      rfl

theorem handleMessage_responds {hs : Handlers} {st st' : ClientState} {m : Msg}
    {rid : Json} {p : PendingRequest}
    (hok : handleMessage hs st m = .ok st') (hresp : respondsTo m rid = true)
    (hnn : hasKey m "result" = true → successCell m ≠ none)
    (hp : probeSlot st.pending rid = some p) :
    ∃ sv, probeSlot st'.pending rid = some (resolveSlot p (some sv)) := by
  obtain ⟨hm, ⟨x, hx, hxe⟩, hre⟩ := respondsTo_true_elim hresp
  have hmv : getKey m "method" = none := getKey_eq_none_of_hasKey_false hm
  have hid : hasKey m "id" = true := by simp [hasKey, hx]
  have hrx : reqIdOf m = x := by simp [reqIdOf, hx]
  have hride : pyKeyEq rid (reqIdOf m) = true := by
    rw [hrx, pyKeyEq_symm]
    exact hxe
  have hpx : probeSlot st.pending (reqIdOf m) = some p := by
    rw [probeSlot_congr (pyKeyEq_symm rid (reqIdOf m) ▸ hride)]
    exact hp
  by_cases hres : hasKey m "result" = true
  · cases hh : (reqIdOf m).pyHashable
    · rw [handleMessage_success_unhashable hmv hid hres hh] at hok
      exact absurd hok (by simp)
    · rw [handleMessage_success hmv hid hres hh, hpx] at hok
      obtain ⟨sv, hsv⟩ := Option.ne_none_iff_exists'.mp (hnn hres)
      cases hok
      refine ⟨sv, ?_⟩
      show probeSlot (resolveAt st.pending (reqIdOf m) (successCell m)) rid =
        some (resolveSlot p (some sv))
      rw [probeSlot_congr hride, hsv]
      exact probeSlot_resolveAt_self hpx _
  · have herr : hasKey m "error" = true := by
      rcases hre with h1 | h1
      · exact absurd h1 hres
      · exact h1
    have hres' : hasKey m "result" = false := by simpa using hres
    cases hh : (reqIdOf m).pyHashable
    · rw [handleMessage_rpcError_unhashable hmv hid hres' herr hh] at hok
      exact absurd hok (by simp)
    · rw [handleMessage_rpcError hmv hid hres' herr hh, hpx] at hok
      rcases hb : buildRPCError (errValOf m) with pe | sv
      · rw [hb] at hok
        exact absurd hok (by simp)
      · rw [hb] at hok
        cases hok
        refine ⟨sv, ?_⟩
        show probeSlot (resolveAt st.pending (reqIdOf m) (some sv)) rid =
          some (resolveSlot p (some sv))
        rw [probeSlot_congr hride]
        exact probeSlot_resolveAt_self hpx _

theorem processMsgs_no_response {hs : Handlers} {rid : Json} :
    ∀ (msgs : List Msg) (st : ClientState),
    (∀ m ∈ msgs, respondsTo m rid = false) →
    probeSlot (processMsgs hs st msgs).1.pending rid = probeSlot st.pending rid
  | [], st, _ => rfl
  | m :: ms, st, hall => by
      rcases hok : handleMessage hs st m with e | st'
      · simp [processMsgs, hok]
      · rw [processMsgs, hok]
        rw [processMsgs_no_response ms st'
          (fun d hd => hall d (List.mem_cons_of_mem _ hd))]
        exact handleMessage_not_responds hok (hall m (List.mem_cons_self _ _))

theorem processMsgs_slot_resolved_once {hs : Handlers} {rid : Json} :
    ∀ (msgs : List Msg) (st : ClientState) (p : PendingRequest),
    probeSlot st.pending rid = some p → p.result = none → p.resolveCount = 0 →
    msgs.countP (fun m => respondsTo m rid) ≤ 1 →
    (∀ m ∈ msgs, respondsTo m rid = true → hasKey m "result" = true →
      successCell m ≠ none) →
    ∃ p', probeSlot (processMsgs hs st msgs).1.pending rid = some p' ∧
      p'.resolveCount ≤ 1 ∧ (p'.result = none → p'.resolveCount = 0)
  | [], st, p, hp, hres, hcnt, _, _ =>
      ⟨p, hp, by omega, fun _ => hcnt⟩
  | m :: ms, st, p, hp, hres, hcnt, hbudget, hnn => by
      rcases hok : handleMessage hs st m with e | st'
      · exact ⟨p, by simp [processMsgs, hok, hp], by omega, fun _ => hcnt⟩
      · rw [processMsgs, hok]
        by_cases hr : respondsTo m rid = true
        · have hms0 : ms.countP (fun m => respondsTo m rid) = 0 := by
            rw [List.countP_cons] at hbudget
            simp only [hr, if_true] at hbudget
            omega
          have hall : ∀ d ∈ ms, respondsTo d rid = false := by
            intro d hd
            by_contra hdc
            have : 0 < ms.countP (fun m => respondsTo m rid) :=
              List.countP_pos_iff.mpr ⟨d, hd, by simpa using hdc⟩
            omega
          obtain ⟨sv, hsv⟩ := handleMessage_responds hok hr
            (hnn m (List.mem_cons_self _ _) hr) hp
          refine ⟨resolveSlot p (some sv), ?_, ?_, ?_⟩
          · rw [processMsgs_no_response ms st' hall]
            exact hsv
          · simp [resolveSlot, hcnt]
          · intro hnone
            simp [resolveSlot] at hnone
        · have hr' : respondsTo m rid = false := by simpa using hr
          have hlu : probeSlot st'.pending rid = some p := by
            rw [handleMessage_not_responds hok hr']
            exact hp
          refine processMsgs_slot_resolved_once ms st' p hlu hres hcnt ?_ ?_
          · rw [List.countP_cons] at hbudget
            simp only [hr', if_false] at hbudget
            omega
          · exact fun d hd => hnn d (List.mem_cons_of_mem _ hd)

theorem failSlot_count {e : PyExn} {p : PendingRequest}
    (hc : p.resolveCount ≤ 1) (himp : p.result = none → p.resolveCount = 0) :
    (failSlot e p).resolveCount ≤ 1 := by
  by_cases hres : p.result = none
  · simp [failSlot, hres, resolveSlot, himp hres]
  · simp [failSlot, hres, hc]

/-- Counterexample to C4 as stated: two success responses for the same id
arriving before the waiting caller is scheduled resolve the same pending
slot twice — `_handle_message` has no resolve-once guard, so the slot's
result cell is written and its event signalled once per response
(`resolveCount = 2`), the second overwriting the first. -/
theorem c4_counterexample :
    (probeSlot (readerLoop noHandlers pendingOne
        [fieldsOf [("id", .num 1), ("result", .num 42)],
         fieldsOf [("id", .num 1), ("result", .num 7)]] none).pending
      (.num 1)).map (fun p => (p.resolveCount, p.result)) =
      some (2, some (.json (.num 7))) := by
  decide

/-- C4 (amended): a pending slot is resolved at most once over the
connection's lifetime — across arbitrary inbound traffic and a subsequent
reader-loop failure — provided the inbound sequence contains at most one
response bearing the slot's id and any success response for it carries a
non-null result. -/
theorem c4_amended_resolve_once (hs : Handlers) (st : ClientState)
    (msgs : List Msg) (streamExn : Option PyExn) (rid : Json) (p : PendingRequest)
    (hp : probeSlot st.pending rid = some p)
    (hres : p.result = none) (hcnt : p.resolveCount = 0)
    (hbudget : msgs.countP (fun m => respondsTo m rid) ≤ 1)
    (hnn : ∀ m ∈ msgs, respondsTo m rid = true → hasKey m "result" = true →
      successCell m ≠ none) :
    ∃ p', probeSlot (readerLoop hs st msgs streamExn).pending rid = some p' ∧
      p'.resolveCount ≤ 1 := by
  obtain ⟨p', hp', hc, himp⟩ :=
    processMsgs_slot_resolved_once msgs st p hp hres hcnt hbudget hnn
  rcases hpm : processMsgs hs st msgs with ⟨st', err⟩
  rw [hpm] at hp'
  simp only at hp'
  rcases err with _ | e
  · rcases streamExn with _ | e
    · refine ⟨p', ?_, hc⟩
      simp only [readerLoop, hpm]
      exact hp'
    · refine ⟨failSlot e p', ?_, failSlot_count hc himp⟩
      simp only [readerLoop, hpm]
      show probeSlot (st'.pending.map (fun kp => (kp.1, failSlot e kp.2))) rid = _
      rw [probeSlot_map_snd, hp']
      rfl
  · refine ⟨failSlot e p', ?_, failSlot_count hc himp⟩
    simp only [readerLoop, hpm]
    show probeSlot (st'.pending.map (fun kp => (kp.1, failSlot e kp.2))) rid = _
    rw [probeSlot_map_snd, hp']
    rfl

/-- Witness for C4 (amended): one non-null success response for id 1
followed by a reader failure leaves the slot resolved exactly once. -/
theorem c4_witness :
    ∃ p', probeSlot (readerLoop noHandlers pendingOne
        [fieldsOf [("id", .num 1), ("result", .num 42)]]
        (some (.codexJSONDecode "bad"))).pending (.num 1) = some p' ∧
      p'.resolveCount ≤ 1 :=
  c4_amended_resolve_once noHandlers pendingOne
    [fieldsOf [("id", .num 1), ("result", .num 42)]]
    (some (.codexJSONDecode "bad")) (.num 1) freshSlot
    (by decide) rfl rfl (by decide) (by decide)

theorem handleMessage_outbox_unchanged {hs : Handlers} {st st' : ClientState}
    {m : Msg} (hok : handleMessage hs st m = .ok st')
    (hnr : ¬(hasKey m "method" = true ∧ hasKey m "id" = true)) :
    st'.outbox = st.outbox := by
  rcases hmv : getKey m "method" with _ | mv
  · by_cases h1 : hasKey m "id" = true ∧ hasKey m "result" = true
    · cases hh : (reqIdOf m).pyHashable
      · rw [handleMessage_success_unhashable hmv h1.1 h1.2 hh] at hok
        exact absurd hok (by simp)
      · rw [handleMessage_success hmv h1.1 h1.2 hh] at hok
        rcases hp : probeSlot st.pending (reqIdOf m) with _ | p <;> rw [hp] at hok <;>
          cases hok <;> rfl
    · by_cases h2 : hasKey m "id" = true ∧ hasKey m "error" = true
      · have hresf : hasKey m "result" = false := by
          rcases Bool.eq_false_or_eq_true (hasKey m "result") with h0 | h0
          · exact absurd ⟨h2.1, h0⟩ h1
          · exact h0
        cases hh : (reqIdOf m).pyHashable
        · rw [handleMessage_rpcError_unhashable hmv h2.1 hresf h2.2 hh] at hok
          exact absurd hok (by simp)
        · rw [handleMessage_rpcError hmv h2.1 hresf h2.2 hh] at hok
          rcases hp : probeSlot st.pending (reqIdOf m) with _ | p
          · rw [hp] at hok
            cases hok
            rfl
          · rw [hp] at hok
            rcases hb : buildRPCError (errValOf m) with pe | sv
            · rw [hb] at hok
              exact absurd hok (by simp)
            · rw [hb] at hok
              cases hok
              rfl
      · rw [handleMessage_ignored hmv h1 h2] at hok
        cases hok
        rfl
  · have hid : hasKey m "id" = false := by
      rcases Bool.eq_false_or_eq_true (hasKey m "id") with h0 | h0
      · exact absurd ⟨hasKey_of_getKey hmv, h0⟩ hnr
      · exact h0
    rw [handleMessage_notification hmv hid] at hok
    cases hok
    rfl

theorem processMsgs_outbox_unchanged {hs : Handlers} :
    ∀ (msgs : List Msg) (st : ClientState),
    (∀ m ∈ msgs, ¬(hasKey m "method" = true ∧ hasKey m "id" = true)) →
    (processMsgs hs st msgs).1.outbox = st.outbox
  | [], st, _ => rfl
  | m :: ms, st, hall => by
      rcases hok : handleMessage hs st m with e | st'
      · simp [processMsgs, hok]
      · rw [processMsgs, hok]
        rw [processMsgs_outbox_unchanged ms st'
          (fun d hd => hall d (List.mem_cons_of_mem _ hd))]
        exact handleMessage_outbox_unchanged hok (hall m (List.mem_cons_self _ _))

theorem requestAwait_false_state (st : ClientState) (reqId : Int) (method : String) :
    (requestAwait st reqId method false).1 =
      { st with pending := removeSlot st.pending (.num reqId) } := by
  rw [requestAwait]
  simp only [Bool.false_eq_true, if_false]
  rcases ((lookupSlot st.pending (.num reqId)).getD freshSlot).result with _ | sv
  · rfl
  · rcases sv <;> rfl

theorem connectRun_ok_outbox {hs : Handlers} {opts : ClientOptions}
    {interleaved : List Msg} {st : ClientState}
    (hok : connectRun hs opts interleaved = .ok st) :
    st.outbox =
      (processMsgs hs (requestSend emptyClient "initialize"
        (initParamsJson opts)).1 interleaved).1.outbox ++ [initializedMsg] := by
  simp only [connectRun] at hok
  rcases hpm : processMsgs hs (requestSend emptyClient "initialize"
      (initParamsJson opts)).1 interleaved with ⟨st', err⟩
  rw [hpm] at hok
  have hs2 : (requestSend emptyClient "initialize" (initParamsJson opts)).2 = 1 := rfl
  rw [hs2] at hok
  rcases err with _ | e
  · rcases hra : requestAwait st' 1 "initialize" false with ⟨st3, res⟩
    rw [hra] at hok
    rcases res with v | e2
    · cases hok
      have hst3 : ({ st' with pending := removeSlot st'.pending (Json.num 1) } :
          ClientState) = st3 := by
        have h1 := congrArg Prod.fst hra
        rw [requestAwait_false_state] at h1
        exact h1
      have h3 : st3.outbox = st'.outbox := by
        rw [← hst3]
      show st3.outbox ++ [initializedMsg] = st'.outbox ++ [initializedMsg]
      rw [h3]
    · cases hok
  · rcases hra : requestAwait { failPending e st' with notifClosed := true } 1
        "initialize" false with ⟨st3, res⟩
    rw [hra] at hok
    rcases res with v | e2
    · cases hok
      have hst3 : ({ { failPending e st' with notifClosed := true } with
          pending := removeSlot (failPending e st').pending (Json.num 1) } :
          ClientState) = st3 := by
        have h1 := congrArg Prod.fst hra
        rw [requestAwait_false_state] at h1
        exact h1
      have h3 : st3.outbox = st'.outbox := by
        rw [← hst3]
        rfl
      show st3.outbox ++ [initializedMsg] = st'.outbox ++ [initializedMsg]
      rw [h3]
    · cases hok

/-- Counterexample to C9 as stated: if the server issues a request of its
own (here `{"id": 77, "method": "item/tool/call"}`) before replying to
`initialize`, the reader answers it before `connect` can send
`initialized`, so a successful `connect`'s outbound order begins
`[initialize, <error reply>, ...]`, not `[initialize, initialized, ...]`. -/
theorem c9_counterexample :
    (connectRun noHandlers defaultOpts
        [fieldsOf [("id", .num 77), ("method", .str "item/tool/call")],
         fieldsOf [("id", .num 1),
           ("result", .obj (.cons "userAgent" (.str "x") .nil))]]).map
      (fun s => s.outbox.take 2) =
      .ok [initRequestMsg defaultOpts,
        errorMsg (.num 77) (-32601) "No dynamic tool handler"] ∧
    errorMsg (.num 77) (-32601) "No dynamic tool handler" ≠ initializedMsg := by
  exact ⟨by decide, by decide⟩

/-- C9 (amended): for every successful `connect` during which the server
initiates no request of its own before the handshake completes, the
outbound traffic is exactly `[initialize-request, initialized]` — the
id-1 initialize request (with `clientInfo` and optional `capabilities`)
first, the `initialized` notification immediately after its result; and a
handshake failure (an RPC error reply to `initialize`) propagates out of
`connect` as that error. -/
theorem c9_handshake_order (hs : Handlers) (opts : ClientOptions)
    (interleaved : List Msg) :
    (∀ st, (∀ m ∈ interleaved, ¬(hasKey m "method" = true ∧ hasKey m "id" = true)) →
      connectRun hs opts interleaved = .ok st →
      st.outbox = [initRequestMsg opts, initializedMsg]) ∧
    (∀ p c emsg d,
      (processMsgs hs (requestSend emptyClient "initialize"
        (initParamsJson opts)).1 interleaved).2 = none →
      lookupSlot (processMsgs hs (requestSend emptyClient "initialize"
        (initParamsJson opts)).1 interleaved).1.pending (.num 1) = some p →
      p.result = some (.rpc c emsg d) →
      connectRun hs opts interleaved = .error (.codexRPC c emsg d)) := by
  constructor
  · intro st hnoreq hok
    rw [connectRun_ok_outbox hok,
      processMsgs_outbox_unchanged interleaved _ hnoreq]
    rfl
  · intro p c emsg d hclean hp hpr
    simp only [connectRun]
    rcases hpm : processMsgs hs (requestSend emptyClient "initialize"
        (initParamsJson opts)).1 interleaved with ⟨st', err⟩
    rw [hpm] at hclean hp
    simp only at hclean hp
    subst hclean
    have hs2 : (requestSend emptyClient "initialize" (initParamsJson opts)).2 = 1 := rfl
    rw [hs2]
    have hra : requestAwait st' 1 "initialize" false =
        ({ st' with pending := removeSlot st'.pending (.num 1) },
         .raise (.codexRPC c emsg d)) := by
      rw [requestAwait]
      simp only [Bool.false_eq_true, if_false, hp, Option.getD_some, hpr]
    rw [hra]

/-- Witness for C9 (amended): the spec's handshake scenario — the server
replies `{"userAgent": "x"}` to the id-1 initialize request — yields a
successful connect whose outbound traffic is exactly
`["initialize", "initialized"]`. -/
theorem c9_witness :
    (connectRun noHandlers defaultOpts
        [fieldsOf [("id", .num 1),
          ("result", .obj (.cons "userAgent" (.str "x") .nil))]]).map
      ClientState.outbox = .ok [initRequestMsg defaultOpts, initializedMsg] := by
  rcases hc : connectRun noHandlers defaultOpts
      [fieldsOf [("id", .num 1),
        ("result", .obj (.cons "userAgent" (.str "x") .nil))]] with e | st
  · have hk : (connectRun noHandlers defaultOpts
        [fieldsOf [("id", .num 1),
          ("result", .obj (.cons "userAgent" (.str "x") .nil))]]).map
        (fun _ => (0 : Nat)) = .ok 0 := by decide
    rw [hc] at hk
    simp [Except.map] at hk
  · have h := (c9_handshake_order noHandlers defaultOpts
      [fieldsOf [("id", .num 1),
        ("result", .obj (.cons "userAgent" (.str "x") .nil))]]).1 st (by decide) hc
    simp [Except.map, h]

end CodexSDK
